import Mathlib

/-!
# Verification of the-library-sale identification-and-caching engine

Shallow embedding of the repository's JavaScript sources:
* `src/unnamed/part_004` — `ScannerManager`, `MediaLookupUtils` (title
  normalisation, match scoring, manual-review decision, UPC lookup with
  request coalescing, TMDB search, complete movie lookup);
* `src/cache.js` — `CacheManager` (size-bounded LRU cache over localStorage).

Modelling conventions:
* JavaScript strings are `List Char` (`Str` below); JavaScript numbers that
  carry scores, sizes or ratios are `ℚ` (the arithmetic in scope is exact);
  timestamps (`Date.now()`) are `Nat` parameters threaded through the
  operations.
* JavaScript values that may be `undefined`/`null` are `Option`s, and the
  `x || d` / `if (x)` truthiness idioms are modelled explicitly
  (`jsOr*`, `truthy*` helpers below: `0`, `""`, `null`, `undefined` are falsy).
* Regex-based string passes are implemented over `List Char` with the exact
  word-boundary (`\b`), case-insensitivity and alternation-order semantics
  the sources rely on.
-/

namespace LibrarySale

/-- JavaScript strings, modelled as lists of characters. -/
abbrev Str := List Char

/-- JavaScript `\w` word characters: `[A-Za-z0-9_]`. -/
def isWordChar (c : Char) : Bool := c.isAlphanum || c == '_'

/-- JavaScript `\s` whitespace characters (the ASCII ones). -/
def isSpaceChar (c : Char) : Bool :=
  c == ' ' || c == '\t' || c == '\n' || c == '\r' || c == Char.ofNat 11 || c == Char.ofNat 12

/-- The apostrophe character (kept out of literals for tooling reasons). -/
def apos : Char := Char.ofNat 39

/-- Case-insensitive character comparison, as used by the `i` regex flag. -/
def charEqCI (a b : Char) : Bool := a.toLower == b.toLower

/-- JavaScript `String.prototype.toLowerCase` (ASCII fragment). -/
def jsToLower (s : Str) : Str := s.map Char.toLower

/-- JavaScript `String.prototype.trim`. -/
def jsTrim (s : Str) : Str :=
  ((s.dropWhile (isSpaceChar ·)).reverse.dropWhile (isSpaceChar ·)).reverse

/-- JavaScript `''.padStart`-free digit test for a whole string: `/^\d{8,18}$/`. -/
def isValidBarcode (s : Str) : Bool :=
  s.all (·.isDigit) && decide (8 ≤ s.length) && decide (s.length ≤ 18)

/-- JavaScript `a || b` on optional booleans (`undefined` falsy). -/
def jsOrBool (o : Option Bool) (d : Bool) : Bool :=
  match o with
  | some true => true
  | _ => d

/-- JavaScript `a || b` on optional naturals (`0` and `undefined` falsy). -/
def jsOrNat (o : Option Nat) (d : Nat) : Nat :=
  match o with
  | some n => if n = 0 then d else n
  | none => d

/-- JavaScript truthiness of an optional string (`undefined` and `""` falsy). -/
def truthyStr (o : Option Str) : Bool :=
  match o with
  | some s => !s.isEmpty
  | none => false

/-- JavaScript `a || b` on optional strings. -/
def jsOrStr (a b : Option Str) : Option Str :=
  if truthyStr a then a else b

/-- JavaScript truthiness of an optional rational (`0` and `undefined` falsy). -/
def truthyRat (o : Option ℚ) : Bool :=
  match o with
  | some q => decide (q ≠ 0)
  | none => false

/-- JavaScript truthiness of an optional natural. -/
def truthyNat (o : Option Nat) : Bool :=
  match o with
  | some n => decide (n ≠ 0)
  | none => false

/-! ## Word-bounded regex replacement

The sources use regexes of the shape `/\b(p₁|p₂|…)\b/gi` (alternation of
mostly-literal words, global, usually case-insensitive) with `.replace`.
We implement that faithfully: scan left to right; at each position try the
alternatives in order; an alternative matches when the pattern tokens match
and both `\b` boundary conditions hold against the characters of the
*original* string; on a match, emit the replacement and resume after the
matched characters; otherwise move one character on. -/

/-- One token of a (mostly literal) regex alternative: a literal character,
a maximal digit run `\d+`, or a character class such as `[AB]`. -/
inductive PatTok
  | lit (c : Char)
  | digits
  | cls (cs : List Char)
deriving DecidableEq, Repr

/-- A pattern is a token sequence; literal words are lifted with `strToks`. -/
def strToks (s : Str) : List PatTok := s.map PatTok.lit

/-- Try to match a token sequence at the head of `s` (case-insensitive when
`ci`); returns the number of characters consumed. `\d+` is greedy-maximal,
which is exact here because every token following a digit run in the source
patterns is a word-boundary (giving back digits cannot help). -/
def matchToks (ci : Bool) : List PatTok → Str → Option Nat
  | [], _ => some 0
  | PatTok.lit c :: ps, x :: xs =>
      if (if ci then charEqCI c x else c == x) then
        (matchToks ci ps xs).map (· + 1)
      else none
  | PatTok.digits :: ps, xs =>
      let run := xs.takeWhile (·.isDigit)
      if run.isEmpty then none
      else (matchToks ci ps (xs.drop run.length)).map (· + run.length)
  | PatTok.cls cs :: ps, x :: xs =>
      if cs.any (fun c => if ci then charEqCI c x else c == x) then
        (matchToks ci ps xs).map (· + 1)
      else none
  | _, [] => none

/-- `\b` before the match: the word-character status must change between the
previous character (none at string start) and the first matched character. -/
def boundaryBefore (prev : Option Char) (first : Char) : Bool :=
  match prev with
  | none => isWordChar first
  | some p => isWordChar p != isWordChar first

/-- `\b` after the match: status change between the last matched character
and the following character (end of string counts as non-word). -/
def boundaryAfter (lastc : Char) (next : Option Char) : Bool :=
  match next with
  | none => isWordChar lastc
  | some n => isWordChar lastc != isWordChar n

/-- Try the alternatives in order at the current position; returns the number
of characters consumed by the first alternative that matches with both
boundaries satisfied. -/
def tryAlts (ci : Bool) (alts : List (List PatTok)) (prev : Option Char) (s : Str) : Option Nat :=
  match alts with
  | [] => none
  | p :: rest =>
    match s, matchToks ci p s with
    | x :: _, some n =>
      if n ≠ 0 && boundaryBefore prev x && boundaryAfter ((s.take n).getLastD x) (s.get? n) then
        some n
      else tryAlts ci rest prev s
    | _, _ => tryAlts ci rest prev s

/-- The scanning loop of `replaceWB`.  Structural recursion on `fuel` (one
unit per emitted position; `fuel = s.length` always suffices, and the
exhaustion case is unreachable then). -/
def replaceWBGo (ci : Bool) (alts : List (List PatTok)) (rep : Str) :
    Nat → Option Char → Str → Str
  | _, _, [] => []
  | 0, _, s => s
  | fuel + 1, prev, x :: xs =>
    match tryAlts ci alts prev (x :: xs) with
    | some n =>
      if n = 0 then x :: replaceWBGo ci alts rep fuel (some x) xs
      else rep ++ replaceWBGo ci alts rep fuel
        (some ((List.take n (x :: xs)).getLastD x)) (List.drop n (x :: xs))
    | none => x :: replaceWBGo ci alts rep fuel (some x) xs

/-- `.replace(/\b(alt₁|alt₂|…)\b/g[i], rep)` over the whole string. -/
def replaceWB (ci : Bool) (alts : List (List PatTok)) (rep : Str) (s : Str) : Str :=
  replaceWBGo ci alts rep s.length none s

/-- Literal-word alternation helper. -/
def replaceWords (ci : Bool) (words : List Str) (rep : Str) (s : Str) : Str :=
  replaceWB ci (words.map strToks) rep s

/-- Dropping a prefix cannot lengthen a list (termination helper). -/
theorem lengthDropWhileLe (p : Char → Bool) (l : Str) :
    (l.dropWhile p).length ≤ l.length := by
  induction l with
  | nil => simp [List.dropWhile]
  | cons c cs ih =>
    by_cases h : p c
    · simp [List.dropWhile, h]
      omega
    · simp [List.dropWhile, h]

/-- The loop of `replaceWsRuns`, fueled for structural recursion. -/
def replaceWsRunsGo (rep : Str) : Nat → Str → Str
  | _, [] => []
  | 0, s => s
  | fuel + 1, c :: cs =>
    if isSpaceChar c then rep ++ replaceWsRunsGo rep fuel (cs.dropWhile (isSpaceChar ·))
    else c :: replaceWsRunsGo rep fuel cs

/-- `.replace(/\s+/g, rep)`: each maximal whitespace run becomes `rep`. -/
def replaceWsRuns (rep : Str) (s : Str) : Str :=
  replaceWsRunsGo rep s.length s

/-- The loop of `splitWs`, fueled for structural recursion. -/
def splitWsGo : Nat → Str → List Str
  | _, [] => [[]]
  | 0, _ => [[]]
  | fuel + 1, c :: cs =>
    if isSpaceChar c then [] :: splitWsGo fuel (cs.dropWhile (isSpaceChar ·))
    else
      match splitWsGo fuel cs with
      | w :: ws => (c :: w) :: ws
      | [] => [[c]]

/-- JavaScript `str.split(/\s+/)`: splits on maximal whitespace runs, keeping
the empty fragments that arise at the ends (`"".split` gives `[""]`). -/
def splitWs (s : Str) : List Str :=
  splitWsGo s.length s

/-- JavaScript `hay.includes(needle)` (substring containment). -/
def jsIncludes (hay needle : Str) : Bool :=
  match hay with
  | [] => needle.isEmpty
  | _ :: rest => (needle.isPrefixOf hay) || jsIncludes rest needle

/-!  ## MediaLookupUtils: title normalisation and match scoring
(src/unnamed/part_004, lines 852–930) -/

namespace MediaLookupUtils

open LibrarySale

/-- `normalizeTitle` (part_004 lines 887–894): lowercase, strip punctuation
(`[^\w\s]`), remove the articles `the`/`a`/`an` as whole words, collapse
whitespace, trim. -/
def normalizeTitle (title : Str) : Str :=
  jsTrim (replaceWsRuns [' ']
    (replaceWords false [['t','h','e'], ['a'], ['a','n']] []
      ((jsToLower title).filter (fun c => isWordChar c || isSpaceChar c))))

/-- `levenshteinDistance` (part_004 lines 897–923): the classic dynamic
program; `row` is the previous matrix row, `left` the entry just written. -/
def levRowAux (c2 : Char) : Str → Nat → List Nat → List Nat
  | [], _, _ => []
  | c1 :: s1rest, left, prev =>
    match prev with
    | [] => []
    | diag :: rest =>
      let up := rest.headD 0
      let cur := if c2 == c1 then diag else min (min diag left) up + 1
      cur :: levRowAux c2 s1rest cur rest

/-- One row of the Levenshtein matrix (for character `c2` of `str2`). -/
def levRow (c2 : Char) (s1 : Str) (prev : List Nat) : List Nat :=
  let first := prev.headD 0 + 1
  first :: levRowAux c2 s1 first prev

/-- `levenshteinDistance(str1, str2)`: final matrix cell. -/
def levenshteinDistance (str1 str2 : Str) : Nat :=
  (str2.foldl (fun row c2 => levRow c2 str1 row) (List.range (str1.length + 1))).getLastD 0

/-- `calculateTitleSimilarity` (part_004 lines 852–884).  Arguments are
`Option`s because callers can pass `undefined` (`result.title || result.name`);
`if (!original || !candidate) return 0` covers `undefined` and `""`. -/
def calculateTitleSimilarity (original candidate : Option Str) : ℚ :=
  match original, candidate with
  | some o, some c =>
    if o.isEmpty || c.isEmpty then 0
    else
      let origClean := normalizeTitle o
      let candClean := normalizeTitle c
      if origClean = candClean then 40
      else if jsIncludes origClean candClean || jsIncludes candClean origClean then 35
      else
        let distance := levenshteinDistance origClean candClean
        let maxLength := max origClean.length candClean.length
        let similarity : ℚ := 1 - (distance : ℚ) / (maxLength : ℚ)
        let origWords := (splitWs origClean).toFinset
        let candWords := (splitWs candClean).toFinset
        let wordSimilarity : ℚ :=
          ((origWords ∩ candWords).card : ℚ) / ((origWords ∪ candWords).card : ℚ)
        max 0 ((similarity * 0.6 + wordSimilarity * 0.4) * 40)
  | _, _ => 0

/-- `\b(19|20)\d{2}\b` matched at the head of the list: literal `19` or `20`,
two digits, and a word boundary after. -/
def yearDigitsAt : Str → Bool
  | a :: b :: c :: d :: rest =>
    ((a == '1' && b == '9') || (a == '2' && b == '0')) && c.isDigit && d.isDigit &&
    (match rest with
     | [] => true
     | n :: _ => !isWordChar n)
  | _ => false

/-- Numeric value of the four leading digits. -/
def yearValueAt : Str → Nat
  | a :: b :: c :: d :: _ =>
    (a.toNat - 48) * 1000 + (b.toNat - 48) * 100 + (c.toNat - 48) * 10 + (d.toNat - 48)
  | _ => 0

/-- One attempt of `/[\(\[]?\b(19|20)\d{2}\b[\)\]]?/` at the current position:
the optional opening bracket is consumed greedily (a leftover `(` can never
start the digit part, so no backtracking arises), the `\b` before the digits
holds automatically after a bracket, and the optional closing bracket is
consumed when present.  Returns the number of characters of the match. -/
def matchYearAt (prev : Option Char) (s : Str) : Option Nat :=
  match s with
  | [] => none
  | x :: xs =>
    if x == '(' || x == '[' then
      if yearDigitsAt xs then
        some (1 + 4 + (match xs.drop 4 with
          | r :: _ => if r == ')' || r == ']' then 1 else 0
          | [] => 0))
      else none
    else if yearDigitsAt (x :: xs) && boundaryBefore prev x then
      some (4 + (match xs.drop 3 with
        | r :: _ => if r == ')' || r == ']' then 1 else 0
        | [] => 0))
    else none

/-- The scanning loop of `stripYears`, fueled for structural recursion. -/
def stripYearsGo : Nat → Option Char → Str → Str
  | _, _, [] => []
  | 0, _, s => s
  | fuel + 1, prev, x :: xs =>
    match matchYearAt prev (x :: xs) with
    | some n =>
      if n = 0 then x :: stripYearsGo fuel (some x) xs
      else stripYearsGo fuel (some ((List.take n (x :: xs)).getLastD x)) (List.drop n (x :: xs))
    | none => x :: stripYearsGo fuel (some x) xs

/-- `.replace(/[\(\[]?\b(19|20)\d{2}\b[\)\]]?/g, '')` (part_004 line 1023). -/
def stripYears (s : Str) : Str :=
  stripYearsGo s.length none s

/-- `.replace(/\b\w/g, l => l.toUpperCase())` (part_004 line 1038). -/
def titleCaseWB : Option Char → Str → Str
  | _, [] => []
  | prev, c :: cs =>
    let c2 :=
      if (match prev with
          | none => true
          | some p => !isWordChar p) && isWordChar c then c.toUpper else c
    c2 :: titleCaseWB (some c) cs

/-- The studio names stripped first (part_004 lines 995–999). -/
def studioNames : List Str :=
  [ "warner home video".toList, "sony pictures".toList, "alpha video".toList,
    "universal studios".toList, "paramount pictures".toList, "disney".toList,
    "mgm".toList, "columbia pictures".toList, "fox".toList, "lionsgate".toList,
    "criterion collection".toList, "anchor bay".toList, "searchlight".toList,
    "magnolia".toList ]

/-- The edition tokens (part_004 line 1009), in source order. -/
def editionWords : List Str :=
  [ "Director".toList ++ [apos] ++ "s Cut".toList, "Extended Edition".toList,
    "Special Edition".toList, "Collector".toList ++ [apos] ++ "s Edition".toList,
    "Limited Edition".toList, "Anniversary Edition".toList, "Unrated".toList,
    "Theatrical".toList, "Ultimate Edition".toList, "Extended".toList, "Cut".toList,
    "2-Disc".toList, "Two Disk".toList, "2 Disk".toList, "Deluxe".toList ]

/-- The disc/region alternation (part_004 line 1027) as token patterns:
`Disc \d+`, `Side [AB]`, `Region \d+`, and the literal alternatives. -/
def discRegionPats : List (List PatTok) :=
  [ strToks "Disc ".toList ++ [PatTok.digits],
    strToks "Side ".toList ++ [PatTok.cls ['A', 'B']],
    strToks "Region ".toList ++ [PatTok.digits],
    strToks "All Regions".toList, strToks "Region Free".toList,
    strToks "Region 1".toList, strToks "Region 2".toList,
    strToks "UK".toList, strToks "US".toList ]

/-- `cleanMovieTitle` (part_004 lines 991–1047): the sequential regex pipeline.
Steps appear in source order; each `.replace` is one pass over the string. -/
def cleanMovieTitle (title : Option Str) : Str :=
  if !truthyStr title then []
  else
    let t := title.getD []
    let c0 := studioNames.foldl (fun s studio => replaceWords true [studio] [] s) t
    let c1 := replaceWords true
      [ "DVD".toList, "Blu-ray".toList, "Blu Ray".toList, "BD".toList, "4K".toList,
        "UHD".toList, "Ultra HD".toList, "HD".toList ] [] c0
    let c2 := replaceWords true
      [ "Widescreen".toList, "Full Screen".toList, "Fullscreen".toList ] [] c1
    let c3 := replaceWords true editionWords [] c2
    let c4 := replaceWords true
      [ "comedy".toList, "drama".toList, "action".toList, "thriller".toList,
        "horror".toList, "romance".toList, "sci-fi".toList, "fantasy".toList,
        "adventure".toList, "documentary".toList ] [] c3
    let c5 := replaceWords true
      [ "Version You".toList ++ [apos] ++ "ve Never Seen".toList,
        "Special Features".toList, "Bonus Material".toList,
        "Behind the Scenes".toList ] [] c4
    let c6 := replaceWords true [ "used".toList, "new".toList, "sealed".toList ] [] c5
    let c7 := replaceWords false [['s']] ([apos] ++ ['s']) c6
    let c8 := replaceWords false [['t']] ([apos] ++ ['t']) c7
    let c9 := replaceWords false [['r','e']] ([apos] ++ ['r','e']) c8
    let c10 := replaceWords false [['v','e']] ([apos] ++ ['v','e']) c9
    let c11 := replaceWords false [['l','l']] ([apos] ++ ['l','l']) c10
    let c12 := stripYears c11
    let c13 := replaceWB true discRegionPats [] c12
    let c14 := replaceWords true
      [ "Full Frame".toList, "Anamorphic".toList, "Pan & Scan".toList ] [] c13
    let c15 := replaceWsRuns [' '] c14
    let c16 := c15.filter (fun c => isWordChar c || isSpaceChar c ||
                                    c == '&' || c == apos || c == '-')
    let c17 := ((c16.dropWhile (fun c => !isWordChar c)).reverse.dropWhile
                  (fun c => !isWordChar c)).reverse
    let c18 := jsTrim c17
    let c19 := titleCaseWB none (jsToLower c18)
    if c19.length < 2 then jsTrim t else c19

/-- First `\b(19|20)\d{2}\b` token in the string (`title.match`, line 1053). -/
def findYearToken : Option Char → Str → Option Nat
  | _, [] => none
  | prev, x :: xs =>
    if yearDigitsAt (x :: xs) && boundaryBefore prev x then some (yearValueAt (x :: xs))
    else findYearToken (some x) xs

/-- `extractYearFromTitle` (part_004 lines 1050–1063); `currentYear` models
`new Date().getFullYear()`. -/
def extractYearFromTitle (currentYear : Nat) (title : Option Str) : Option Nat :=
  if !truthyStr title then none
  else
    match findYearToken none (title.getD []) with
    | some year => if 1900 ≤ year ∧ year ≤ currentYear + 2 then some year else none
    | none => none

/-- JavaScript `parseInt` restricted to the digit-prefix case used here
(`NaN` becomes `none`; every comparison against `NaN` is false). -/
def parseIntPrefix (s : Str) : Option Nat :=
  let ds := s.takeWhile (·.isDigit)
  if ds.isEmpty then none
  else some (ds.foldl (fun a c => a * 10 + (c.toNat - 48)) 0)

/-- `extractYearFromDate` (part_004 lines 926–930). -/
def extractYearFromDate (dateString : Option Str) : Option Nat :=
  match dateString with
  | none => none
  | some s =>
    if s.isEmpty then none
    else
      match parseIntPrefix (s.take 4) with
      | none => none
      | some year => if 1900 ≤ year ∧ year ≤ 2030 then some year else none

/-- The dynamic `id` field: a number for API results, a string such as
`upc_<timestamp>` for the synthesized placeholder. -/
inductive JSId
  | num (n : Nat)
  | strv (s : Str)
deriving DecidableEq, Repr

/-- A TMDB media object as the code handles it: search items, full-detail
records and the synthesized placeholder all share this (JSON) shape; fields
the server may omit are `Option`s or carry the JSON default. -/
structure TMDBItem where
  id : JSId
  media_type : String
  title : Option Str := none
  name : Option Str := none
  overview : Option Str := none
  poster_path : Option Str := none
  release_date : Option Str := none
  first_air_date : Option Str := none
  popularity : ℚ := 0
  vote_average : ℚ := 0
  vote_count : Nat := 0
  matchScore : Option ℚ := none
  needsManualReview : Bool := false
deriving DecidableEq, Repr

instance : Inhabited TMDBItem := ⟨{ id := JSId.num 0, media_type := "movie" }⟩

/-- The fixed confidence threshold (part_004 line 825). -/
def CONFIDENCE_THRESHOLD : ℚ := 35

/-- `needsManualReview` (part_004 lines 813–849).  The `originalTitle`
parameter is accepted and unused, as in the source.  Truthiness guards are
explicit: the popularity check is skipped when `popularity` is `0`
(`bestMatch.popularity && bestMatch.popularity < 0.5`), and the year check
fires when the result year is missing or differs by more than 2. -/
def needsManualReview (bestMatch : Option TMDBItem) (_originalTitle : Option Str)
    (targetYear : Option Nat) : Bool :=
  match bestMatch with
  | none => true
  | some m =>
    if m.needsManualReview then true
    else
      let score := m.matchScore.getD 0
      if score < CONFIDENCE_THRESHOLD then true
      else
        let yearBad :=
          match targetYear with
          | some ty =>
            if ty = 0 then false
            else
              match extractYearFromDate (jsOrStr m.release_date m.first_air_date) with
              | none => true
              | some ry => decide (((ry : ℤ) - (ty : ℤ)).natAbs > 2)
          | none => false
        if yearBad then true
        else if m.popularity ≠ 0 ∧ m.popularity < 0.5 then true
        else false

/-- `scoreSearchResult` (part_004 lines 704–730). -/
def scoreSearchResult (result : TMDBItem) (originalTitle : Str) (targetYear : Option Nat)
    (strategyPriority : String) : ℚ :=
  let score := result.matchScore.getD 0
  let score := score + (if strategyPriority = "high" then 20
                        else if strategyPriority = "medium" then 10 else 0)
  let resultTitle := jsToLower ((jsOrStr result.title result.name).getD [])
  let cleanOriginal := jsTrim (jsToLower originalTitle)
  let score := score + (if resultTitle = cleanOriginal then 25 else 0)
  let score := score +
    (match targetYear with
     | some ty =>
       if ty ≠ 0 ∧
          extractYearFromDate (jsOrStr result.release_date result.first_air_date) = some ty
       then 20 else 0
     | none => 0)
  let score := score - (if result.popularity ≠ 0 ∧ result.popularity < 1 then 10 else 0)
  let score := score + (if result.vote_count ≠ 0 ∧ 100 < result.vote_count then 5 else 0)
  max 0 score

/-- The per-item score of `findBestTMDBMatch` (part_004 lines 744–801). -/
def matchItemScore (item : TMDBItem) (originalTitle : Str) (targetYear : Option Nat) : ℚ :=
  let itemTitle := jsOrStr item.title item.name
  let itemYear := extractYearFromDate (jsOrStr item.release_date item.first_air_date)
  let titleScore := calculateTitleSimilarity (some originalTitle) itemTitle
  let yearScore : ℚ :=
    match targetYear, itemYear with
    | some ty, some iy =>
      if ty ≠ 0 ∧ iy ≠ 0 then
        let yearDiff := ((ty : ℤ) - (iy : ℤ)).natAbs
        if yearDiff = 0 then 30
        else if yearDiff = 1 then 20
        else if yearDiff ≤ 3 then 10
        else 0
      else 0
    | _, _ => 0
  let popularityScore := min (item.popularity / 10) 15
  let mediaScore : ℚ := if item.media_type = "movie" then 10 else 0
  let voteScore := min (item.vote_average / 2) 5
  titleScore + yearScore + popularityScore + mediaScore + voteScore

/-- `findBestTMDBMatch` (part_004 lines 733–811).  A single result is
returned as-is (without a `matchScore`); otherwise every result is scored,
the list is stably sorted by descending score (JavaScript
`sort((a, b) => b.matchScore - a.matchScore)`) and the head wins. -/
def findBestTMDBMatch (results : List TMDBItem) (originalTitle : Str)
    (targetYear : Option Nat) : TMDBItem :=
  match results with
  | [r] => r
  | _ =>
    let scored := results.map
      (fun item => { item with matchScore := some (matchItemScore item originalTitle targetYear) })
    let sorted := scored.insertionSort
      (fun a b => (b.matchScore.getD 0) ≤ (a.matchScore.getD 0))
    sorted.headD default

end MediaLookupUtils

/-! ## CacheManager (src/cache.js, lines 6–264)

localStorage is modelled as an insertion-ordered association list from full
storage keys to *structured* values (a stored cache entry or a namespace
index); `JSON.parse ∘ JSON.stringify` is the identity on the values the
manager writes, so serialisation is left implicit except for its byte cost.
The byte cost charged by the browser (`JSON.stringify(v).length`) is an
environment parameter `lenv`, and the browser quota a parameter `quota`:
`setItem` rejects a write that would push the total stored cost above the
quota, which is the `QuotaExceededError` recovery path of `set`. -/

namespace CacheManager

/-- A stored cache entry `{ data, expiry }` (cache.js lines 121–124). -/
structure StoredItem (V : Type) where
  data : V
  expiry : Nat
deriving DecidableEq, Repr

/-- A namespace-index entry `{ size, lastUsed }` (cache.js lines 131–134). -/
structure IndexEntry where
  size : Nat
  lastUsed : Nat
deriving DecidableEq, Repr

/-- A namespace index: JavaScript object, insertion-ordered, unique keys. -/
abbrev IndexObj := List (String × IndexEntry)

/-- What a localStorage slot holds. -/
inductive StorageVal (V : Type)
  | item (it : StoredItem V)
  | index (idx : IndexObj)
deriving DecidableEq, Repr

/-- localStorage: insertion-ordered map from storage keys to values. -/
abbrev Storage (V : Type) := List (String × StorageVal V)

/-- JavaScript object read (`o[k]`). -/
def objGet {α : Type} : List (String × α) → String → Option α
  | [], _ => none
  | (k', v) :: rest, k => if k' = k then some v else objGet rest k

/-- JavaScript object write (`o[k] = v`): replace in place, else append. -/
def objSet {α : Type} : List (String × α) → String → α → List (String × α)
  | [], k, v => [(k, v)]
  | (k', v') :: rest, k, v =>
    if k' = k then (k, v) :: rest else (k', v') :: objSet rest k v

/-- JavaScript `delete o[k]` / `localStorage.removeItem(k)`. -/
def objDel {α : Type} (o : List (String × α)) (k : String) : List (String × α) :=
  o.filter (fun p => p.1 ≠ k)

/-- Constructor-derived configuration (cache.js lines 13–24). -/
structure Config where
  pfx : String
  maxSizeBytes : ℚ
  defaultExpiryMs : Nat
deriving Repr

/-- `new CacheManager(prefix, maxSizeMB, defaultExpiryHours)`. -/
def mkCacheManager (pfx : String) (maxSizeMB : ℚ) (defaultExpiryHours : Nat) : Config :=
  { pfx := pfx
    maxSizeBytes := maxSizeMB * 1024 * 1024
    defaultExpiryMs := defaultExpiryHours * 60 * 60 * 1000 }

/-- The `stats` counters (cache.js lines 17–22). -/
structure Stats where
  hits : Nat := 0
  misses : Nat := 0
  sets : Nat := 0
  evictions : Nat := 0
deriving DecidableEq, Repr

/-- The manager's mutable state: its localStorage view plus counters. -/
structure CMState (V : Type) where
  storage : Storage V
  stats : Stats := {}
deriving Repr

variable {V : Type}

/-- Total byte cost currently charged by the browser for the stored values. -/
def usedBytes (lenv : StorageVal V → Nat) (st : Storage V) : Nat :=
  (st.map (fun p => lenv p.2)).sum

/-- `localStorage.setItem`: succeeds unless the write would exceed the
browser quota (in which case a `QuotaExceededError` is thrown). -/
def lsSetItem (lenv : StorageVal V → Nat) (quota : Nat) (st : Storage V)
    (k : String) (v : StorageVal V) : Option (Storage V) :=
  let st' := objSet st k v
  if usedBytes lenv st' ≤ quota then some st' else none

/-- `_getStorageKey` (cache.js lines 32–34). -/
def storageKey (cfg : Config) (cacheType key : String) : String :=
  cfg.pfx ++ cacheType ++ "_" ++ key

/-- The index key `` `${prefix}_index_${cacheType}` `` (cache.js line 43). -/
def indexKey (cfg : Config) (cacheType : String) : String :=
  cfg.pfx ++ "_index_" ++ cacheType

/-- `_getCacheIndex` (cache.js lines 42–51): missing or non-index content
reads as the empty index. -/
def getCacheIndex (st : Storage V) (cfg : Config) (cacheType : String) : IndexObj :=
  match objGet st (indexKey cfg cacheType) with
  | some (StorageVal.index idx) => idx
  | _ => []

/-- `_saveCacheIndex` (cache.js lines 58–65): a failed write is caught and
logged, leaving the state unchanged. -/
def saveCacheIndex (lenv : StorageVal V → Nat) (quota : Nat) (cfg : Config)
    (s : CMState V) (cacheType : String) (idx : IndexObj) : CMState V :=
  match lsSetItem lenv quota s.storage (indexKey cfg cacheType) (StorageVal.index idx) with
  | some st' => { s with storage := st' }
  | none => s

/-- `remove` (cache.js lines 164–169). -/
def remove (lenv : StorageVal V → Nat) (quota : Nat) (cfg : Config)
    (s : CMState V) (cacheType key : String) : CMState V :=
  let s1 : CMState V := { s with storage := objDel s.storage (storageKey cfg cacheType key) }
  let idx := getCacheIndex s1.storage cfg cacheType
  saveCacheIndex lenv quota cfg s1 cacheType (objDel idx key)

/-- `get` (cache.js lines 73–108): miss on absence, lazy expiry with removal,
LRU `lastUsed` refresh on a hit (when the key is indexed), counter updates. -/
def get (lenv : StorageVal V → Nat) (quota : Nat) (cfg : Config) (now : Nat)
    (s : CMState V) (cacheType key : String) : Option V × CMState V :=
  match objGet s.storage (storageKey cfg cacheType key) with
  | none => (none, { s with stats := { s.stats with misses := s.stats.misses + 1 } })
  | some (StorageVal.index _) =>
    -- A stored index parses as an object with `expiry`/`data` undefined:
    -- `Date.now() > undefined` is false, so the code takes the hit path and
    -- returns `undefined`.  Unreachable for the states built in this file.
    let idx := getCacheIndex s.storage cfg cacheType
    let s' := match objGet idx key with
      | some e => saveCacheIndex lenv quota cfg s cacheType
                    (objSet idx key { e with lastUsed := now })
      | none => s
    (none, { s' with stats := { s'.stats with hits := s'.stats.hits + 1 } })
  | some (StorageVal.item it) =>
    if it.expiry < now then
      let s1 := remove lenv quota cfg s cacheType key
      (none, { s1 with stats := { s1.stats with misses := s1.stats.misses + 1 } })
    else
      let idx := getCacheIndex s.storage cfg cacheType
      let s' := match objGet idx key with
        | some e => saveCacheIndex lenv quota cfg s cacheType
                      (objSet idx key { e with lastUsed := now })
        | none => s
      (some it.data, { s' with stats := { s'.stats with hits := s'.stats.hits + 1 } })

/-- A candidate gathered for eviction (cache.js lines 190–197). -/
structure EvictItem where
  cacheType : String
  key : String
  lastUsed : Nat
  size : Nat
deriving DecidableEq, Repr

/-- `k.startsWith(p)` over the character-list view of strings. -/
def strStartsWith (s p : String) : Bool := p.toList.isPrefixOf s.toList

/-- `k.replace(p, '')` for a prefix `p`: drop its characters. -/
def strDropChars (s : String) (n : Nat) : String := String.mk (s.toList.drop n)

/-- Candidates from *all* namespace indexes of this manager
(cache.js lines 184–198), in storage/index order. -/
def gatherAllItems (cfg : Config) (st : Storage V) : List EvictItem :=
  ((st.map Prod.fst).filter (fun k => strStartsWith k (cfg.pfx ++ "_index_"))).flatMap
    (fun ik =>
      let cacheType := strDropChars ik (cfg.pfx ++ "_index_").length
      (getCacheIndex st cfg cacheType).map
        (fun p => { cacheType := cacheType, key := p.1,
                    lastUsed := p.2.lastUsed, size := p.2.size }))

/-- `allItems.sort((a, b) => a.lastUsed - b.lastUsed)`: stable ascending. -/
def sortByLastUsed (l : List EvictItem) : List EvictItem :=
  l.insertionSort (fun a b => a.lastUsed ≤ b.lastUsed)

/-- The eviction loop (cache.js lines 204–212): shift-and-remove while the
*tracked* total is above the ceiling; also returns the log of evicted items.
The tracked total stays an integer (JavaScript number arithmetic on integer
byte counts is exact), compared against the possibly fractional ceiling. -/
def evictLoop (lenv : StorageVal V → Nat) (quota : Nat) (cfg : Config) :
    ℤ → List EvictItem → CMState V → CMState V × List EvictItem
  | _, [], s => (s, [])
  | total, it :: rest, s =>
    if cfg.maxSizeBytes < (total : ℚ) then
      let s1 := remove lenv quota cfg s it.cacheType it.key
      let s2 := { s1 with stats := { s1.stats with evictions := s1.stats.evictions + 1 } }
      let (s3, evs) := evictLoop lenv quota cfg (total - (it.size : ℤ)) rest s2
      (s3, it :: evs)
    else (s, [])

/-- `getTotalSize` (cache.js lines 219–230). -/
def getTotalSize (cfg : Config) (st : Storage V) : Nat :=
  (((st.map Prod.fst).filter (fun k => strStartsWith k (cfg.pfx ++ "_index_"))).map
    (fun ik =>
      let cacheType := strDropChars ik (cfg.pfx ++ "_index_").length
      ((getCacheIndex st cfg cacheType).map (fun p => p.2.size)).sum)).sum

/-- `_enforceSizeLimit` (cache.js lines 175–213), with the eviction log. -/
def enforceSizeLimitLog (lenv : StorageVal V → Nat) (quota : Nat) (cfg : Config)
    (s : CMState V) (force : Bool) : CMState V × List EvictItem :=
  let totalSize : ℤ := (getTotalSize cfg s.storage : ℤ)
  if force = false ∧ (totalSize : ℚ) < cfg.maxSizeBytes then (s, [])
  else evictLoop lenv quota cfg totalSize (sortByLastUsed (gatherAllItems cfg s.storage)) s

/-- `_enforceSizeLimit` proper. -/
def enforceSizeLimit (lenv : StorageVal V → Nat) (quota : Nat) (cfg : Config)
    (s : CMState V) (force : Bool) : CMState V :=
  (enforceSizeLimitLog lenv quota cfg s force).1

/-- `set` (cache.js lines 117–157), with the eviction log of the enforcement
pass it triggers.  On a quota rejection: forced eviction, one retry, silent
give-up — note the retry path never saves the index entry for the new key. -/
def setLog (lenv : StorageVal V → Nat) (quota : Nat) (cfg : Config) (now : Nat)
    (s : CMState V) (cacheType key : String) (data : V) (expiryHours : Option Nat) :
    CMState V × List EvictItem :=
  let expiry := now + (match expiryHours with
    | some h => if h = 0 then cfg.defaultExpiryMs else h * 60 * 60 * 1000
    | none => cfg.defaultExpiryMs)
  let item : StoredItem V := { data := data, expiry := expiry }
  let itemSize := lenv (StorageVal.item item)
  let idx := getCacheIndex s.storage cfg cacheType
  let idx' := objSet idx key { size := itemSize, lastUsed := now }
  match lsSetItem lenv quota s.storage (storageKey cfg cacheType key) (StorageVal.item item) with
  | some st1 =>
    let s1 := saveCacheIndex lenv quota cfg { s with storage := st1 } cacheType idx'
    let s2 := { s1 with stats := { s1.stats with sets := s1.stats.sets + 1 } }
    enforceSizeLimitLog lenv quota cfg s2 false
  | none =>
    let s1 := enforceSizeLimit lenv quota cfg s true
    match lsSetItem lenv quota s1.storage (storageKey cfg cacheType key) (StorageVal.item item) with
    | some st2 => ({ s1 with storage := st2 }, [])
    | none => (s1, [])

/-- `set` proper. -/
def set (lenv : StorageVal V → Nat) (quota : Nat) (cfg : Config) (now : Nat)
    (s : CMState V) (cacheType key : String) (data : V) (expiryHours : Option Nat) : CMState V :=
  (setLog lenv quota cfg now s cacheType key data expiryHours).1

end CacheManager

/-! ## ScannerManager (src/unnamed/part_004, lines 8–321)

The scanner session is a state machine over the fields the source mutates.
The caller-supplied handler `onBarcodeScanned` is an environment parameter
`handler : String → Except String Unit` (its settled outcome); calls to the
`onStatusUpdate`/`onError` callbacks, handler invocations and the
`setTimeout`-scheduled "ready" status are recorded as an event list. -/

namespace ScannerManager

open CacheManager (objGet objSet objDel)

/-- Constructor configuration (part_004 lines 9–17); absent fields are
`undefined`. -/
structure ScannerConfig where
  continuous : Option Bool := none
  allowDuplicates : Option Bool := none
  enableHapticFeedback : Option Bool := none
  pauseBetweenScans : Option Nat := none
deriving Repr

/-- The session state (part_004 lines 19–30): completed set, in-flight map
(barcode to admission timestamp), rate-limit clock and mode flags. -/
structure ScannerState where
  continuous : Bool
  allowDuplicates : Bool
  enableHapticFeedback : Bool
  pauseBetweenScans : Nat
  isScanning : Bool := false
  isPaused : Bool := false
  scannedBarcodes : List String := []
  processingBarcodes : List (String × Nat) := []
  lastScanTime : Nat := 0
  minScanInterval : Nat := 2000
deriving DecidableEq, Repr

/-- `new ScannerManager(config)` (part_004 lines 9–33).  Note
`config.allowDuplicates || true` (line 15): `false || true` is `true`, so the
field is `true` whatever the configuration says — contrast line 16, which
uses `!== false` for `enableHapticFeedback`. -/
def init (config : ScannerConfig) : ScannerState :=
  { continuous := jsOrBool config.continuous false
    allowDuplicates := jsOrBool config.allowDuplicates true
    enableHapticFeedback := config.enableHapticFeedback ≠ some false
    pauseBetweenScans := jsOrNat config.pauseBetweenScans 1500 }

/-- JavaScript `Set.prototype.add` on the completed list. -/
def setAdd (l : List String) (x : String) : List String :=
  if x ∈ l then l else l ++ [x]

/-- `Map.prototype.has` on the in-flight map. -/
def mapHas (m : List (String × Nat)) (k : String) : Bool :=
  (objGet m k).isSome

/-- Observable effects of one scanner step. -/
inductive ScanEvent
  | statusUpdate (message : String) (kind : String)
  | errorSurfaced (message : String) (context : String)
  | handlerInvoked (barcode : String)
  | readyScheduled
deriving DecidableEq, Repr

/-- `startCamera`'s state effect once decoding begins (part_004 lines 78–80). -/
def startCameraState (s : ScannerState) : ScannerState :=
  { s with isScanning := true, isPaused := false }

/-- `stopCamera` (part_004 lines 107–121). -/
def stopCamera (s : ScannerState) : ScannerState :=
  { s with isScanning := false, isPaused := false }

/-- `processBarcode` (part_004 lines 189–227).  The format check throws
before the handler runs; the `catch` removes the barcode from the in-flight
map and surfaces the error; only a successful handler moves the barcode to
the completed set; non-continuous sessions stop the camera on success. -/
def processBarcode (handler : String → Except String Unit) (s : ScannerState)
    (barcode : String) : ScannerState × List ScanEvent :=
  if !isValidBarcode barcode.toList then
    ({ s with processingBarcodes := objDel s.processingBarcodes barcode },
     [ScanEvent.errorSurfaced "Invalid barcode format (must be 8-18 digits)" "barcode_processing"]
       ++ (if s.continuous then [ScanEvent.readyScheduled] else []))
  else
    match handler barcode with
    | Except.ok _ =>
      let s1 := { s with scannedBarcodes := setAdd s.scannedBarcodes barcode
                         processingBarcodes := objDel s.processingBarcodes barcode }
      if s1.continuous then (s1, [ScanEvent.handlerInvoked barcode, ScanEvent.readyScheduled])
      else (stopCamera s1, [ScanEvent.handlerInvoked barcode])
    | Except.error e =>
      let s1 := { s with processingBarcodes := objDel s.processingBarcodes barcode }
      (s1, [ScanEvent.handlerInvoked barcode, ScanEvent.errorSurfaced e "barcode_processing"]
           ++ (if s1.continuous then [ScanEvent.readyScheduled] else []))

/-- `handleScanResult` (part_004 lines 146–184): drop unless scanning and not
paused; global rate limit against `lastScanTime`; in-flight rejection with a
"processing" status; duplicate rejection (dead in practice, see `init`);
otherwise admit to the in-flight map and process. -/
def handleScanResult (handler : String → Except String Unit) (s : ScannerState)
    (now : Nat) (result : Option String) : ScannerState × List ScanEvent :=
  if !s.isScanning || s.isPaused then (s, [])
  else
    match result with
    | none => (s, [])
    | some barcode =>
      if now - s.lastScanTime < s.minScanInterval then (s, [])
      else
        let s := { s with lastScanTime := now }
        if mapHas s.processingBarcodes barcode then
          (s, [ScanEvent.statusUpdate ("Processing " ++ barcode ++ "...") "processing"])
        else if !s.allowDuplicates && barcode ∈ s.scannedBarcodes then
          (s, [ScanEvent.statusUpdate ("Already processed: " ++ barcode) "warning"])
        else
          let s := { s with processingBarcodes := objSet s.processingBarcodes barcode now }
          let (s', evs) := processBarcode handler s barcode
          (s', ScanEvent.statusUpdate ("Processing: " ++ barcode) "processing" :: evs)

/-- `barcode.trim()` over the list model (ASCII whitespace). -/
def jsTrimStr (s : String) : String := String.mk (jsTrim s.toList)

/-- `addManualBarcode` (part_004 lines 232–263).  The same in-flight,
format and duplicate checks as the camera path — but the barcode is added to
the completed set *before* the handler runs, and stays there if the handler
fails; manual entries are never put in the in-flight map. -/
def addManualBarcode (handler : String → Except String Unit) (s : ScannerState)
    (barcode : String) : Bool × ScannerState × List ScanEvent :=
  let cleanBarcode := jsTrimStr barcode
  if mapHas s.processingBarcodes cleanBarcode then
    (false, s, [ScanEvent.errorSurfaced "Barcode is currently being processed" "processing"])
  else if barcode = "" || !isValidBarcode (jsTrimStr barcode).toList then
    (false, s, [ScanEvent.errorSurfaced "Please enter a valid barcode (8-18 digits)" "manual_entry"])
  else if !s.allowDuplicates && cleanBarcode ∈ s.scannedBarcodes then
    (false, s, [ScanEvent.errorSurfaced "Barcode already processed" "duplicate"])
  else if mapHas s.processingBarcodes cleanBarcode then
    (false, s, [ScanEvent.errorSurfaced "This barcode is currently being processed." "processing"])
  else
    let s1 := { s with scannedBarcodes := setAdd s.scannedBarcodes cleanBarcode }
    match handler cleanBarcode with
    | Except.ok _ => (true, s1, [ScanEvent.handlerInvoked cleanBarcode])
    | Except.error e =>
      (false, s1, [ScanEvent.handlerInvoked cleanBarcode,
                   ScanEvent.errorSurfaced e "manual_processing"])

end ScannerManager

/-! ## MediaLookupUtils: name-hint extraction (part_004 lines 1064–1109)

The patterns have the `gi` flags, so `[A-Z][a-z]+` degenerates to "a maximal
letter run of length ≥ 2"; a capture group `NAME` is a greedy sequence of at
least two such runs separated by whitespace.  For the `NAME\s+kw` shapes the
regex backtracks whole words (giving back letters inside a word leaves a
letter where `\s+` is required, so only whole-word backtracking can succeed),
which is what `nameSpans` (longest span first) implements. -/

namespace MediaLookupUtils

/-- Length of a name word (`[A-Z][a-z]+` under `i`: a maximal letter run of
length at least 2) at the head of the string. -/
def nameWordAt (s : Str) : Option Nat :=
  let run := s.takeWhile (·.isAlpha)
  if 2 ≤ run.length then some run.length else none

/-- Length of a nonempty whitespace run (`\s+`) at the head of the string. -/
def spacesAt (s : Str) : Option Nat :=
  let run := s.takeWhile (isSpaceChar ·)
  if run.isEmpty then none else some run.length

/-- A successful `\s+` match is nonempty and the string is nonempty. -/
theorem spacesAtPos {s : Str} {sp : Nat} (h : spacesAt s = some sp) :
    0 < sp ∧ 0 < s.length := by
  cases s with
  | nil => simp [spacesAt, List.takeWhile] at h
  | cons c cs =>
    by_cases hc : isSpaceChar c
    · simp [spacesAt, List.takeWhile, hc] at h
      exact ⟨by omega, by simp⟩
    · simp [spacesAt, List.takeWhile, hc] at h

/-- The loop of `extLens`, fueled for structural recursion. -/
def extLensGo : Nat → Str → List Nat
  | 0, _ => []
  | fuel + 1, s =>
    match spacesAt s with
    | none => []
    | some sp =>
      match nameWordAt (s.drop sp) with
      | none => []
      | some wl => (sp + wl) :: extLensGo fuel (s.drop (sp + wl))

/-- Lengths of the successive `\s+word` extensions available at the head. -/
def extLens (s : Str) : List Nat :=
  extLensGo s.length s

/-- All lengths of `NAME` matches at the head of the string (at least two
words), longest first — the order a greedy `(?:\s+w)+` backtracks in. -/
def nameSpans (s : Str) : List Nat :=
  match nameWordAt s with
  | none => []
  | some l1 =>
    let exts := extLens (s.drop l1)
    ((List.range exts.length).map (fun k => l1 + ((exts.take (k + 1)).sum))).reverse

/-- Case-insensitive literal word at the head. -/
def litCIAt (w : Str) (s : Str) : Option Nat :=
  if (List.zipWith charEqCI w (s.take w.length)).all id ∧ w.length ≤ s.length then
    some w.length
  else none

/-- A regex match at the current position: total length, capture offset and
capture length. -/
structure RxMatch where
  full : Nat
  capOff : Nat
  capLen : Nat
deriving Repr

/-- Shape `kw₁\s+…\s+kwₙ\s+NAME` at the head (capture = greedy-longest NAME). -/
def p1At (kws : List Str) (s : Str) : Option RxMatch :=
  go kws 0 s
where
  go : List Str → Nat → Str → Option RxMatch
    | [], _, _ => none
    | [k], off, rest => do
      let kl ← litCIAt k rest
      let sp ← spacesAt (rest.drop kl)
      let span ← (nameSpans (rest.drop (kl + sp))).head?
      pure { full := off + kl + sp + span, capOff := off + kl + sp, capLen := span }
    | k :: k2 :: ks, off, rest => do
      let kl ← litCIAt k rest
      let sp ← spacesAt (rest.drop kl)
      go (k2 :: ks) (off + kl + sp) (rest.drop (kl + sp))

/-- Shape `NAME\s+kw` at the head (capture = the longest NAME for which
`\s+kw` follows, the backtracking order). -/
def p2At (kw : Str) (s : Str) : Option RxMatch :=
  go (nameSpans s)
where
  go : List Nat → Option RxMatch
    | [] => none
    | span :: rest =>
      match spacesAt (s.drop span) with
      | some sp =>
        match litCIAt kw (s.drop (span + sp)) with
        | some kl => some { full := span + sp + kl, capOff := 0, capLen := span }
        | none => go rest
      | none => go rest

/-- The loop of `execAll`, fueled for structural recursion. -/
def execAllGo (pat : Str → Option RxMatch) : Nat → Str → List Str
  | _, [] => []
  | 0, _ => []
  | fuel + 1, x :: xs =>
    match pat (x :: xs) with
    | some m =>
      if m.full = 0 then execAllGo pat fuel xs
      else ((x :: xs).drop m.capOff).take m.capLen :: execAllGo pat fuel ((x :: xs).drop m.full)
    | none => execAllGo pat fuel xs

/-- The `while ((match = pattern.exec(title)) !== null)` loop: leftmost match,
collect the capture, resume after the full match. -/
def execAll (pat : Str → Option RxMatch) (s : Str) : List Str :=
  execAllGo pat s.length s

/-- Fold one pattern's matches into the accumulator with the
`length > 3 && !includes` filter (part_004 lines 1076–1084). -/
def collectNames (acc : List Str) (captures : List Str) : List Str :=
  captures.foldl
    (fun acc cap =>
      let nm := jsTrim cap
      if 3 < nm.length ∧ nm ∉ acc then acc ++ [nm] else acc) acc

/-- `extractActorNames` (part_004 lines 1064–1086): patterns
`starring NAME`, `with NAME`, `NAME in`, `featuring NAME`. -/
def extractActorNames (title : Option Str) : List Str :=
  if !truthyStr title then []
  else
    let t := title.getD []
    let caps := [ execAll (p1At ["starring".toList]) t,
                  execAll (p1At ["with".toList]) t,
                  execAll (p2At "in".toList) t,
                  execAll (p1At ["featuring".toList]) t ]
    caps.foldl collectNames []

/-- `extractDirectorHints` (part_004 lines 1088–1109): patterns
`directed by NAME`, `NAME film`, `NAME movie`, `from NAME`. -/
def extractDirectorHints (title : Option Str) : List Str :=
  if !truthyStr title then []
  else
    let t := title.getD []
    let caps := [ execAll (p1At ["directed".toList, "by".toList]) t,
                  execAll (p2At "film".toList) t,
                  execAll (p2At "movie".toList) t,
                  execAll (p1At ["from".toList]) t ]
    caps.foldl collectNames []

end MediaLookupUtils

/-! ## MediaLookupUtils: lookup state, coalescing, search, complete lookup
(part_004 lines 324–988)

`MediaLookupUtils` keeps one `sessionCache` Map (keys `upc_*` and `tmdb_*`,
values the respective records — modelled by the `CacheVal` sum), a
`persistentCache` `CacheManager` (constructed by `init()` as
`new CacheManager('media_lookup_cache_', 100, 24)`) and a `pendingRequests`
Map from cache key to the in-flight operation (operation ids here).

The network is the environment: `_fetchUPCData` is a function
`String → Except Str UPCData` (its settled outcome), and the TMDB service is
a `SearchEnv`.  For the coalescing claim the asynchronous execution is
modelled in two phases, exploiting JavaScript's run-to-completion semantics:
`lookupPhase1` is the synchronous prefix of `lookupUPCData` up to and
including `pendingRequests.set` (by which point `_fetchUPCData` — and hence
the network fetch — has been invoked for a starter), and `settleStarter` is
the starter's continuation once the shared promise settles. -/

namespace MediaLookupUtils

open CacheManager (objGet objSet objDel CMState)

/-- A UPC product record as `_fetchUPCData` builds it (part_004 503–510):
every field is defaulted to a string, so none is `undefined`. -/
structure UPCData where
  barcode : String
  originalTitle : Str
  brand : Str
  category : Str
  description : Str
  images : List Str := []
deriving DecidableEq, Repr

/-- What the shared `sessionCache`/`persistentCache` hold: UPC records under
`upc_*` keys, TMDB records under `tmdb_*` keys. -/
inductive CacheVal
  | upc (u : UPCData)
  | tmdb (t : TMDBItem)
deriving DecidableEq, Repr

/-- `upcData.originalTitle` as a dynamic access (`undefined` off-variant). -/
def CacheVal.originalTitleField : CacheVal → Option Str
  | CacheVal.upc u => some u.originalTitle
  | CacheVal.tmdb _ => none

/-- `upcData.brand`. -/
def CacheVal.brandField : CacheVal → Option Str
  | CacheVal.upc u => some u.brand
  | CacheVal.tmdb _ => none

/-- `upcData.category`. -/
def CacheVal.categoryField : CacheVal → Option Str
  | CacheVal.upc u => some u.category
  | CacheVal.tmdb _ => none

/-- `upcData.description`. -/
def CacheVal.descriptionField : CacheVal → Option Str
  | CacheVal.upc u => some u.description
  | CacheVal.tmdb _ => none

/-- `upcData.barcode`. -/
def CacheVal.barcodeField : CacheVal → Option String
  | CacheVal.upc u => some u.barcode
  | CacheVal.tmdb _ => none

/-- Reading a session/persistent value as a TMDB record.  The off-variant
cannot occur (only `tmdb_*` keys hold search results); the default mirrors
the untyped access. -/
def CacheVal.asTMDB : CacheVal → TMDBItem
  | CacheVal.tmdb t => t
  | CacheVal.upc _ => default

/-- The `MediaLookupUtils` mutable state. -/
structure MLState where
  sessionCache : List (String × CacheVal) := []
  persistent : Option (CMState CacheVal) := none
  pending : List (String × Nat) := []
deriving Repr

/-- `MediaLookupUtils.init()` (part_004 lines 338–340):
`new CacheManager('media_lookup_cache_', 100, 24)`, written with the
constructor arithmetic carried out (see `mlCfgEqConstructor`). -/
def mlCfg : CacheManager.Config :=
  { pfx := "media_lookup_cache_", maxSizeBytes := 104857600, defaultExpiryMs := 86400000 }

/-- `mlCfg` is exactly what the `CacheManager` constructor produces for
`('media_lookup_cache_', 100, 24)`. -/
theorem mlCfgEqConstructor : mlCfg = CacheManager.mkCacheManager "media_lookup_cache_" 100 24 := by
  simp [mlCfg, CacheManager.mkCacheManager]
  norm_num

/-- The freshly initialised state. -/
def mlInit : MLState := { persistent := some { storage := [] } }

/-- The `upc_${barcode}` cache key (part_004 line 344). -/
def upcCacheKey (barcode : String) : String := "upc_" ++ barcode

/-- Per-caller outcome of the synchronous prefix of `lookupUPCData`. -/
inductive LookupOutcome
  | sessionHit (v : CacheVal)
  | persistentHit (v : CacheVal)
  | awaitOp (op : Nat)
  | startOp (op : Nat)
deriving DecidableEq, Repr

/-- The synchronous prefix of `lookupUPCData` (part_004 lines 343–371):
session cache, persistent cache (promoting a hit into the session cache),
pending map, else start a fresh operation and register it as pending. -/
def lookupPhase1 (lenv : CacheManager.StorageVal CacheVal → Nat) (quota : Nat)
    (now : Nat) (st : MLState) (barcode : String) (freshOp : Nat) :
    LookupOutcome × MLState :=
  let cacheKey := upcCacheKey barcode
  match objGet st.sessionCache cacheKey with
  | some v => (LookupOutcome.sessionHit v, st)
  | none =>
    let afterPersistent :
        Option CacheVal × MLState :=
      match st.persistent with
      | some pc =>
        let (cached, pc') := CacheManager.get lenv quota mlCfg now pc "upc" cacheKey
        (cached, { st with persistent := some pc' })
      | none => (none, st)
    match afterPersistent with
    | (some v, st1) =>
      (LookupOutcome.persistentHit v,
       { st1 with sessionCache := objSet st1.sessionCache cacheKey v })
    | (none, st1) =>
      match objGet st1.pending cacheKey with
      | some op => (LookupOutcome.awaitOp op, st1)
      | none =>
        (LookupOutcome.startOp freshOp,
         { st1 with pending := objSet st1.pending cacheKey freshOp })

/-- The starter's continuation once the shared operation settles
(part_004 lines 372–385): on success cache in both tiers; in both cases the
`finally` clause deletes the pending entry. -/
def settleStarter (lenv : CacheManager.StorageVal CacheVal → Nat) (quota : Nat)
    (now : Nat) (st : MLState) (barcode : String) (result : Except Str CacheVal) : MLState :=
  let cacheKey := upcCacheKey barcode
  match result with
  | Except.ok v =>
    let st1 := { st with sessionCache := objSet st.sessionCache cacheKey v }
    let newPc := match st1.persistent with
      | some pc => some (CacheManager.set lenv quota mlCfg now pc "upc" cacheKey v none)
      | none => none
    let st2 := { st1 with persistent := newPc }
    { st2 with pending := objDel st2.pending cacheKey }
  | Except.error _ => { st with pending := objDel st.pending cacheKey }

/-- N callers' synchronous prefixes, in arrival order (all before the shared
operation settles); returns the outcomes, the state, and how many fresh
operations (= `_fetchUPCData` invocations, = network fetches) were started. -/
def burstPhase1 (lenv : CacheManager.StorageVal CacheVal → Nat) (quota : Nat)
    (now : Nat) (barcode : String) :
    Nat → MLState → Nat → List LookupOutcome × MLState × Nat
  | 0, st, _ => ([], st, 0)
  | n + 1, st, nextOp =>
    let (o, st1) := lookupPhase1 lenv quota now st barcode nextOp
    let started := match o with
      | LookupOutcome.startOp _ => 1
      | _ => 0
    let (os, st2, cnt) := burstPhase1 lenv quota now barcode n st1 (nextOp + started)
    (o :: os, st2, started + cnt)

/-- What a caller's awaited promise resolves to, given the settled results of
the operations (`ops : Nat → Except Str CacheVal`). -/
def callerResult (ops : Nat → Except Str CacheVal) : LookupOutcome → Except Str CacheVal
  | LookupOutcome.sessionHit v => Except.ok v
  | LookupOutcome.persistentHit v => Except.ok v
  | LookupOutcome.awaitOp op => ops op
  | LookupOutcome.startOp op => ops op

/-- `lookupUPCData` as a single sequential call (the composition of the
synchronous prefix, the awaited `_fetchUPCData` outcome `fetchUPC barcode`,
and the starter continuation).  The `awaitOp` branch would await another
caller's promise and is only reachable when a pending entry pre-exists; it is
exercised by the burst model instead. -/
def lookupUPCDataSeq (lenv : CacheManager.StorageVal CacheVal → Nat) (quota : Nat)
    (fetchUPC : String → Except Str UPCData) (now : Nat) (st : MLState)
    (barcode : String) : Except Str CacheVal × MLState :=
  match lookupPhase1 lenv quota now st barcode 0 with
  | (LookupOutcome.sessionHit v, st1) => (Except.ok v, st1)
  | (LookupOutcome.persistentHit v, st1) => (Except.ok v, st1)
  | (LookupOutcome.startOp _, st1) =>
    let r := (fetchUPC barcode).map CacheVal.upc
    (r, settleStarter lenv quota now st1 barcode r)
  | (LookupOutcome.awaitOp _, st1) => (Except.error "await-pending".toList, st1)

/-- One TMDB search strategy (part_004 lines 581–609). -/
structure Strategy where
  query : Str
  priority : String
deriving DecidableEq, Repr

/-- Decimal rendering of a number interpolated into a template string. -/
def natStr (n : Nat) : Str := (toString n).toList

/-- `title.replace(actor, '')`: remove the first occurrence of a literal
substring (plain-string `String.prototype.replace`). -/
def replaceFirst (hay needle : Str) : Str :=
  if needle.isEmpty then hay
  else go hay
where
  go : Str → Str
    | [] => []
    | x :: xs =>
      if needle.isPrefixOf (x :: xs) then (x :: xs).drop needle.length
      else x :: go xs

/-- The ordered strategy list of `_searchTMDB` (part_004 lines 581–609). -/
def searchStrategies (title : Str) (year : Option Nat) (exactMatch : Bool) : List Strategy :=
  (if truthyNat year then
    [{ query := ['"'] ++ title ++ ['"', ' '] ++ natStr (year.getD 0), priority := "high" }]
   else [])
  ++ (if truthyNat year then
    [{ query := title ++ [' '] ++ natStr (year.getD 0), priority := "medium" }]
   else [])
  ++ [{ query := ['"'] ++ title ++ ['"'], priority := "medium" }]
  ++ (if exactMatch then [] else [{ query := title, priority := "low" }])
  ++ (extractActorNames (some title)).map
      (fun actor => { query := actor ++ [' '] ++ jsTrim (replaceFirst title actor),
                      priority := "medium" })
  ++ (extractDirectorHints (some title)).map
      (fun director => { query := title ++ [' '] ++ director, priority := "medium" })

/-- The TMDB service boundary (§6 of the spec): `search q` is the parsed
`results` array of `GET /search/multi?query=q` (`none` when the fetch throws
or the response is not OK), `details mt id` the parsed detail record. -/
structure SearchEnv where
  search : Str → Option (List TMDBItem)
  details : String → JSId → Option TMDBItem

/-- The strategy loop of `_searchTMDB` (part_004 lines 610–653): skip failed,
empty or non-media result sets; score the best candidate of each set, track
the running best, and break early on a high-priority score above 90. -/
def searchLoop (env : SearchEnv) (title : Str) (year : Option Nat) :
    List Strategy → Option TMDBItem → ℚ → Option TMDBItem × ℚ
  | [], best, bestScore => (best, bestScore)
  | strat :: rest, best, bestScore =>
    match env.search strat.query with
    | none => searchLoop env title year rest best bestScore
    | some results =>
      if results.isEmpty then searchLoop env title year rest best bestScore
      else
        let mediaResults := results.filter
          (fun item => item.media_type = "movie" ∨ item.media_type = "tv")
        if mediaResults.isEmpty then searchLoop env title year rest best bestScore
        else
          let candidateResult := findBestTMDBMatch mediaResults title year
          let score := scoreSearchResult candidateResult title year strat.priority
          if bestScore < score then
            if 90 < score ∧ strat.priority = "high" then (some candidateResult, score)
            else searchLoop env title year rest (some candidateResult) score
          else searchLoop env title year rest best bestScore

/-- The placeholder candidate synthesized when no strategy produced a result
(part_004 lines 655–673). -/
def noResultPlaceholder (now : Nat) (title : Str) : TMDBItem :=
  { id := JSId.strv ("upc_".toList ++ natStr now)
    title := some title
    name := some title
    overview := some "No results found - needs manual review".toList
    poster_path := none
    release_date := none
    first_air_date := none
    media_type := "movie"
    matchScore := some 0
    popularity := 0
    vote_average := 0
    vote_count := 0
    needsManualReview := true }

/-- `_searchTMDB` (part_004 lines 574–701): reject an empty title, run the
strategy loop, synthesize the placeholder when nothing matched, else fetch
the detail record and overlay `matchScore` and `media_type` from the search
stage. -/
def searchTMDBInternal (env : SearchEnv) (now : Nat) (title : Str)
    (year : Option Nat) (exactMatch : Bool) : Except Str TMDBItem :=
  if title.isEmpty || (jsTrim title).isEmpty then
    Except.error "No title to search".toList
  else
    match (searchLoop env title year (searchStrategies title year exactMatch) none 0).1 with
    | none => Except.ok (noResultPlaceholder now title)
    | some bestResult =>
      match env.details bestResult.media_type bestResult.id with
      | none => Except.error "Failed to load full movie details from TMDB".toList
      | some fullDetails =>
        Except.ok { fullDetails with matchScore := bestResult.matchScore
                                     media_type := bestResult.media_type }

/-- The TMDB cache key (part_004 lines 522–524). -/
def tmdbCacheKey (title : Str) (year : Option Nat) (exactMatch : Bool) : String :=
  let searchStrategy := if exactMatch then "exact" else "fuzzy"
  "tmdb_" ++ searchStrategy ++ "_" ++ String.mk (replaceWsRuns ['_'] (jsToLower title))
    ++ "_" ++ (if truthyNat year then toString (year.getD 0) else "no_year")

/-- `searchTMDBForTitle` as a single sequential call (part_004 lines
521–571): session cache, persistent cache (promoting hits), then
`_searchTMDB`, caching a successful result in both tiers; the pending entry
is set and deleted around the awaited call. -/
def searchTMDBForTitleSeq (lenv : CacheManager.StorageVal CacheVal → Nat) (quota : Nat)
    (env : SearchEnv) (now : Nat) (st : MLState) (title : Str) (year : Option Nat)
    (exactMatch : Bool) : Except Str TMDBItem × MLState :=
  let cacheKey := tmdbCacheKey title year exactMatch
  match objGet st.sessionCache cacheKey with
  | some v => (Except.ok v.asTMDB, st)
  | none =>
    let afterPersistent :
        Option CacheVal × MLState :=
      match st.persistent with
      | some pc =>
        let (cached, pc') := CacheManager.get lenv quota mlCfg now pc "tmdb" cacheKey
        (cached, { st with persistent := some pc' })
      | none => (none, st)
    match afterPersistent with
    | (some v, st1) =>
      (Except.ok v.asTMDB, { st1 with sessionCache := objSet st1.sessionCache cacheKey v })
    | (none, st1) =>
      match objGet st1.pending cacheKey with
      | some _ => (Except.error "await-pending".toList, st1)
      | none =>
        match searchTMDBInternal env now title year exactMatch with
        | Except.ok result =>
          let sc2 := objSet st1.sessionCache cacheKey (CacheVal.tmdb result)
          let st2 := { st1 with sessionCache := sc2 }
          let newPc := match st2.persistent with
            | some pc => some (CacheManager.set lenv quota mlCfg now pc "tmdb" cacheKey
                (CacheVal.tmdb result) none)
            | none => none
          (Except.ok result, { st2 with persistent := newPc })
        | Except.error e => (Except.error e, st1)

/-- `String.prototype.toUpperCase` (ASCII fragment). -/
def jsToUpper (s : Str) : Str := s.map Char.toUpper

/-- `extractFormat` (part_004 lines 1124–1140): first listed format found in
the upper-cased title or category, with the `Blu Ray` / `Ultra HD` / `4K`
normalisations; `HD` anywhere defaults to Blu-ray, else DVD. -/
def extractFormat (title category : Option Str) : Str :=
  let titleUpper := jsToUpper (title.getD [])
  let categoryUpper := jsToUpper (category.getD [])
  let rec fmtLoop : List Str → Option Str
    | [] => none
    | f :: rest =>
      if jsIncludes titleUpper (jsToUpper f) || jsIncludes categoryUpper (jsToUpper f) then
        if f = "Blu Ray".toList then some "Blu-ray".toList
        else if f = "Ultra HD".toList || jsIncludes titleUpper "4K".toList then
          some "4K UHD".toList
        else some f
      else fmtLoop rest
  match fmtLoop [ "4K".toList, "UHD".toList, "Ultra HD".toList, "Blu-ray".toList,
                  "Blu Ray".toList, "DVD".toList, "Digital".toList, "VHS".toList ] with
  | some f => f
  | none =>
    if jsIncludes titleUpper "HD".toList || jsIncludes categoryUpper "HD".toList then
      "Blu-ray".toList
    else "DVD".toList

/-- The edition list of `extractEdition` (part_004 lines 1144–1149). -/
def editionList : List Str :=
  [ "Director".toList ++ [apos] ++ "s Cut".toList, "Extended Edition".toList,
    "Special Edition".toList, "Collector".toList ++ [apos] ++ "s Edition".toList,
    "Limited Edition".toList, "Anniversary Edition".toList, "Theatrical Release".toList,
    "Unrated".toList, "Ultimate Edition".toList, "Criterion Collection".toList,
    "Collector".toList, "Edition".toList, "Director".toList, "Extended".toList,
    "Cut".toList, "Two-Disk".toList, "2-Disk".toList, "2-Disc".toList,
    "Two-Disc".toList, "2 Disk".toList, "2 Disc".toList, "Two Disk".toList,
    "Two Disc".toList ]

/-- `extractEdition` (part_004 lines 1143–1160). -/
def extractEdition (title : Option Str) : Str :=
  let titleLower := jsToLower (title.getD [])
  let rec edLoop : List Str → Str
    | [] => "Standard".toList
    | e :: rest =>
      if jsIncludes titleLower (jsToLower e) then e else edLoop rest
  edLoop editionList

/-- `extractRegion` (part_004 lines 1165–1177). -/
def extractRegion (title description : Option Str) : Str :=
  let searchText := jsToLower ((title.getD []) ++ [' '] ++ (description.getD []))
  let rec regLoop : List Str → Str
    | [] => "Region 1".toList
    | r :: rest =>
      if jsIncludes searchText (jsToLower r) then r else regLoop rest
  regLoop [ "Region 1".toList, "Region 2".toList, "Region 3".toList, "Region A".toList,
            "Region B".toList, "Region C".toList, "All Regions".toList,
            "Region Free".toList ]

/-- The keyword-to-feature table of `extractFeatures` (part_004 1186–1198). -/
def featureMap : List (Str × Str) :=
  [ ("commentary".toList, "Director Commentary".toList),
    ("deleted scenes".toList, "Deleted Scenes".toList),
    ("behind the scenes".toList, "Behind the Scenes".toList),
    ("making of".toList, "Making Of".toList),
    ("bloopers".toList, "Bloopers/Outtakes".toList),
    ("gag reel".toList, "Bloopers/Outtakes".toList),
    ("documentary".toList, "Documentary".toList),
    ("interviews".toList, "Cast/Crew Interviews".toList),
    ("featurette".toList, "Featurettes".toList),
    ("trailer".toList, "Trailers".toList),
    ("music video".toList, "Music Videos".toList) ]

/-- `extractFeatures` (part_004 lines 1182–1207). -/
def extractFeatures (title description : Option Str) : List Str :=
  let searchText := jsToLower ((title.getD []) ++ [' '] ++ (description.getD []))
  featureMap.foldl
    (fun acc kv => if jsIncludes searchText kv.1 then acc ++ [kv.2] else acc) []

/-- The physical-edition record (part_004 lines 1112–1121). -/
structure PhysicalEdition where
  format : Str
  edition : Str
  region : Str
  distributor : Str
  features : List Str
  barcode : Option String
deriving DecidableEq, Repr

/-- `createPhysicalEditionData` (part_004 lines 1112–1121). -/
def createPhysicalEditionData (upcData : CacheVal) : PhysicalEdition :=
  { format := extractFormat upcData.originalTitleField upcData.categoryField
    edition := extractEdition upcData.originalTitleField
    region := extractRegion upcData.originalTitleField upcData.descriptionField
    distributor := (jsOrStr upcData.brandField (some [])).getD []
    features := extractFeatures upcData.originalTitleField upcData.descriptionField
    barcode := upcData.barcodeField }

/-- The object `completeMovieLookup` resolves with (part_004 lines 972–980). -/
structure LookupOutput where
  upcData : CacheVal
  tmdbData : TMDBItem
  physicalEdition : PhysicalEdition
  cleanTitle : Str
  extractedYear : Option Nat
  confidence : ℚ
  needsReview : Bool
deriving Repr

/-- `completeMovieLookup` (part_004 lines 933–988): UPC lookup, title
cleaning and year extraction, TMDB search, physical-edition extraction, then
the confidence step: `tmdbData.matchScore || 0`, and when that is `0` a
fallback confidence (title self-similarity + year match + popularity) is
computed and *written back onto* `tmdbData.matchScore` before
`needsManualReview` runs. -/
def completeMovieLookup (lenv : CacheManager.StorageVal CacheVal → Nat) (quota : Nat)
    (fetchUPC : String → Except Str UPCData) (env : SearchEnv) (currentYear : Nat)
    (now : Nat) (st : MLState) (barcode : String) : Except Str LookupOutput × MLState :=
  match lookupUPCDataSeq lenv quota fetchUPC now st barcode with
  | (Except.error e, st1) => (Except.error e, st1)
  | (Except.ok upcData, st1) =>
    let cleanTitle := cleanMovieTitle upcData.originalTitleField
    let extractedYear := extractYearFromTitle currentYear upcData.originalTitleField
    match searchTMDBForTitleSeq lenv quota env now st1 cleanTitle extractedYear false with
    | (Except.error e, st2) => (Except.error e, st2)
    | (Except.ok tmdbData, st2) =>
      let physicalEdition := createPhysicalEditionData upcData
      let confidence0 := tmdbData.matchScore.getD 0
      let dates := jsOrStr tmdbData.release_date tmdbData.first_air_date
      let pair :=
        if confidence0 = 0 then
          let titleSimilarity :=
            calculateTitleSimilarity (some cleanTitle) (jsOrStr tmdbData.title tmdbData.name)
          let hasYear := truthyNat extractedYear && truthyStr dates
          let yearMatch :=
            if hasYear then
              decide ((((extractedYear.getD 0) : ℤ) -
                ((extractYearFromDate dates).getD 0 : ℤ)).natAbs ≤ 1)
            else false
          let confidence := titleSimilarity + (if yearMatch then 20 else 0) +
            (if tmdbData.popularity ≠ 0 then min (tmdbData.popularity / 10) 15 else 0)
          (confidence, { tmdbData with matchScore := some confidence })
        else (confidence0, tmdbData)
      let needsReview := needsManualReview (some pair.2) (some cleanTitle) extractedYear
      (Except.ok
        { upcData := upcData
          tmdbData := pair.2
          physicalEdition := physicalEdition
          cleanTitle := cleanTitle
          extractedYear := extractedYear
          confidence := pair.1
          needsReview := needsReview }, st2)

end MediaLookupUtils

/-! ## Claims -/

open MediaLookupUtils CacheManager ScannerManager

/-- A nonempty list is not `isEmpty`. -/
theorem isEmptyFalseOfNe {l : Str} (h : l ≠ []) : l.isEmpty = false := by
  cases l with
  | nil => exact absurd rfl h
  | cons x xs => rfl

/-- The intersection of two finite sets is no larger than their union. -/
theorem interCardLeUnionCard (A B : Finset Str) : (A ∩ B).card ≤ (A ∪ B).card :=
  Finset.card_le_card (Finset.inter_subset_left.trans Finset.subset_union_left)

/-- A quotient of naturals with numerator at most denominator lies in `[0,1]`. -/
theorem natDivBounds (i u : Nat) (h : i ≤ u) :
    0 ≤ (i : ℚ) / (u : ℚ) ∧ (i : ℚ) / (u : ℚ) ≤ 1 := by
  constructor
  · positivity
  · rcases Nat.eq_zero_or_pos u with hu | hu
    · subst hu
      have : i = 0 := Nat.le_zero.mp h
      simp [this]
    · rw [div_le_one (by exact_mod_cast hu)]
      exact_mod_cast h

/-- The weighted similarity combination stays at or below 40. -/
theorem combinedLe40 (s w : ℚ) (hs : s ≤ 1) (hw : w ≤ 1) :
    (s * 0.6 + w * 0.4) * 40 ≤ 40 := by nlinarith

/-- `titleSimilarity` on a non-empty string and itself takes the
exact-normalized-match branch and scores 40. -/
theorem calcSimSelf (a : Str) (ha : a ≠ []) :
    calculateTitleSimilarity (some a) (some a) = 40 := by
  have hne : a.isEmpty = false := isEmptyFalseOfNe ha
  simp [calculateTitleSimilarity, hne]

/-- **C5.** `titleSimilarity(a, b)` always lies in `[0, 40]`, and on any
non-empty string `a`, `titleSimilarity(a, a) = 40` (the exact-normalized-match
branch fires because `normalizeTitle` is deterministic). -/
theorem claim_C5_titleSimilarity_bounds :
    (∀ a b : Str,
      0 ≤ calculateTitleSimilarity (some a) (some b) ∧
      calculateTitleSimilarity (some a) (some b) ≤ 40) ∧
    (∀ a : Str, a ≠ [] → calculateTitleSimilarity (some a) (some a) = 40) := by
  constructor
  · intro a b
    show (0 : ℚ) ≤ (if a.isEmpty || b.isEmpty then (0 : ℚ) else _) ∧ _
    by_cases hab : (a.isEmpty || b.isEmpty) = true
    · simp [calculateTitleSimilarity, hab]
    · simp only [calculateTitleSimilarity, hab]
      by_cases heq : normalizeTitle a = normalizeTitle b
      · simp [heq]
      · simp only [heq, if_false]
        by_cases hinc : (jsIncludes (normalizeTitle a) (normalizeTitle b) ||
                         jsIncludes (normalizeTitle b) (normalizeTitle a)) = true
        · simp [hinc]
          norm_num
        · simp only [hinc, if_false, Bool.false_eq_true]
          set d := levenshteinDistance (normalizeTitle a) (normalizeTitle b) with hd
          set m := max (normalizeTitle a).length (normalizeTitle b).length with hm
          set A := (splitWs (normalizeTitle a)).toFinset with hA
          set B := (splitWs (normalizeTitle b)).toFinset with hB
          have hs : (1 : ℚ) - (d : ℚ) / (m : ℚ) ≤ 1 := by
            have : (0 : ℚ) ≤ (d : ℚ) / (m : ℚ) := by positivity
            linarith
          have hw := natDivBounds (A ∩ B).card (A ∪ B).card (interCardLeUnionCard A B)
          refine ⟨le_max_left 0 _, max_le (by norm_num) ?_⟩
          exact combinedLe40 _ _ hs hw.2
  · exact calcSimSelf

/-- Witness for C5: the non-emptiness hypothesis discharged at `"a"`. -/
theorem claim_C5_witness :
    (['a'] : Str) ≠ [] ∧ calculateTitleSimilarity (some ['a']) (some ['a']) = 40 :=
  ⟨by decide, claim_C5_titleSimilarity_bounds.2 ['a'] (by decide)⟩

/-- The review condition exactly as claim C4 words it: no candidate, the
sentinel flag, score strictly below 35, a target year from which the
candidate's year differs by more than 2, or popularity below 0.5.  (Spec-side
definition, to be compared with the source's `needsManualReview`.) -/
def c4ClaimedCond (bestMatch : Option TMDBItem) (targetYear : Option Nat) : Bool :=
  match bestMatch with
  | none => true
  | some c =>
    c.needsManualReview ||
    decide (c.matchScore.getD 0 < 35) ||
    (match targetYear, extractYearFromDate (jsOrStr c.release_date c.first_air_date) with
     | some ty, some ry => decide (2 < ((ry : ℤ) - (ty : ℤ)).natAbs)
     | _, _ => false) ||
    decide (c.popularity < 0.5)

/-- The review condition the code actually implements, written as claim C4's
amendment words it: as C4, except that the popularity test requires a
*nonzero* popularity below 0.5 (`popularity &&` skips `0`), and the year test
fires also when the target year exists but the candidate's year is absent. -/
def c4AmendedCond (bestMatch : Option TMDBItem) (targetYear : Option Nat) : Bool :=
  match bestMatch with
  | none => true
  | some c =>
    c.needsManualReview ||
    decide (c.matchScore.getD 0 < 35) ||
    (truthyNat targetYear &&
      (match extractYearFromDate (jsOrStr c.release_date c.first_air_date) with
       | none => true
       | some ry => decide (2 < ((ry : ℤ) - ((targetYear.getD 0) : ℤ)).natAbs))) ||
    (decide (c.popularity ≠ 0) && decide (c.popularity < 0.5))

/-- A fully confident candidate except that its popularity is exactly `0`. -/
def popZeroCandidate : TMDBItem :=
  { id := JSId.num 603
    media_type := "movie"
    title := some "The Matrix".toList
    release_date := some "1999-03-31".toList
    popularity := 0
    vote_average := 8
    vote_count := 24000
    matchScore := some 40 }

/-- **C4, counterexample.** At a candidate with score 40, matching year and
popularity exactly `0`, the claimed condition holds (`0 < 0.5`) but the
code's `needsManualReview` returns `false`: the guard
`bestMatch.popularity && bestMatch.popularity < 0.5` skips a zero
popularity.  The claim's "exactly when" is therefore false as stated. -/
theorem claim_C4_counterexample :
    c4ClaimedCond (some popZeroCandidate) (some 1999) = true ∧
    needsManualReview (some popZeroCandidate) (some "The Matrix".toList) (some 1999) = false := by
  constructor
  · simp +decide [c4ClaimedCond, popZeroCandidate, extractYearFromDate, parseIntPrefix,
      jsOrStr, truthyStr]
    norm_num
  · simp +decide [needsManualReview, popZeroCandidate, extractYearFromDate, parseIntPrefix,
      jsOrStr, truthyStr, CONFIDENCE_THRESHOLD]

/-- A candidate at exactly the confidence threshold, year matching. -/
def score35Candidate : TMDBItem :=
  { id := JSId.num 1
    media_type := "movie"
    release_date := some "1999-06-11".toList
    popularity := 5
    matchScore := some 35 }

/-- The same candidate one point below the threshold. -/
def score34Candidate : TMDBItem :=
  { score35Candidate with matchScore := some 34 }

/-- **C4, amended.** `needsManualReview` is a pure function of the candidate
and target year that returns `true` exactly when: no candidate exists; the
sentinel flag is set; the score is strictly below 35; a (nonzero) target year
exists and the candidate's year is absent or differs from it by more than 2;
or the candidate's popularity is *nonzero* and below 0.5.  In particular a
candidate with score exactly 35 and a matching year does not need review,
while score 34 does. -/
theorem claim_C4_needsManualReview_amended :
    (∀ (m : Option TMDBItem) (o : Option Str) (ty : Option Nat),
      needsManualReview m o ty = c4AmendedCond m ty) ∧
    needsManualReview (some score35Candidate) (some "The Matrix".toList) (some 1999) = false ∧
    needsManualReview (some score34Candidate) (some "The Matrix".toList) (some 1999) = true := by
  refine ⟨?_, ?_, ?_⟩
  · intro m o ty
    cases m with
    | none => simp [needsManualReview, c4AmendedCond]
    | some c =>
      simp only [needsManualReview, c4AmendedCond, CONFIDENCE_THRESHOLD]
      by_cases h1 : c.needsManualReview = true <;>
        by_cases h2 : c.matchScore.getD 0 < 35 <;>
        by_cases hA : c.popularity = 0 <;>
        by_cases hB : c.popularity < 0.5
      all_goals
        cases ty with
        | none => simp_all [truthyNat]
        | some t =>
          by_cases ht : t = 0
          · simp_all [truthyNat]
          · cases hy : extractYearFromDate (jsOrStr c.release_date c.first_air_date) with
            | none => simp_all [truthyNat]
            | some ry =>
              by_cases hd : 2 < ((ry : ℤ) - (t : ℤ)).natAbs <;>
                simp_all [truthyNat, Bool.or_assoc]
  · simp +decide [needsManualReview, score35Candidate, extractYearFromDate, parseIntPrefix,
      jsOrStr, truthyStr, CONFIDENCE_THRESHOLD]
    norm_num
  · simp +decide [needsManualReview, score34Candidate, score35Candidate, extractYearFromDate,
      parseIntPrefix, jsOrStr, truthyStr, CONFIDENCE_THRESHOLD]

/-- The raw product title of the C9 scenario. -/
def matrixTitle : Str := "The Matrix (1999) Widescreen Special Edition DVD".toList

/-- **C9.** On the scenario title, `cleanMovieTitle` yields exactly
`"The Matrix"` and `extractYearFromTitle` yields `1999` — the first 4-digit
token starting `19`/`20`, accepted since `1900 ≤ 1999 ≤ currentYear + 2`. -/
theorem claim_C9_cleanTitle_extractYear (currentYear : Nat) (h : 1997 ≤ currentYear) :
    cleanMovieTitle (some matrixTitle) = "The Matrix".toList ∧
    extractYearFromTitle currentYear (some matrixTitle) = some 1999 := by
  constructor
  · decide
  · have hfy : findYearToken none matrixTitle = some 1999 := by decide
    have ht : truthyStr (some matrixTitle) = true := by decide
    simp only [extractYearFromTitle, ht, Bool.not_true, Bool.false_eq_true, if_false,
      Option.getD_some, hfy]
    rw [if_pos]
    exact ⟨by norm_num, by omega⟩

/-- Witness for C9 at the current year 2026. -/
theorem claim_C9_witness :
    1997 ≤ 2026 ∧
    (cleanMovieTitle (some matrixTitle) = "The Matrix".toList ∧
     extractYearFromTitle 2026 (some matrixTitle) = some 1999) :=
  ⟨by decide, claim_C9_cleanTitle_extractYear 2026 (by decide)⟩

/-- **C8.** While the session is scanning (and not paused), a decode event
whose arrival time is within the minimum interval (default 2000 ms) of the
last accepted scan is rejected with no effect: the state (in particular the
in-flight map) is unchanged and neither the handler nor any callback runs.
`lastAccepted` is the admission time of the last accepted scan; the code's
`lastScanTime` is only ever updated at later rate-passing events, so
`lastAccepted ≤ s.lastScanTime` is an invariant of every reachable state. -/
theorem claim_C8_rate_limit (handler : String → Except String Unit) (s : ScannerState)
    (now lastAccepted : Nat) (barcode : String)
    (hscan : s.isScanning = true) (hpause : s.isPaused = false)
    (hla : lastAccepted ≤ s.lastScanTime) (hmono : s.lastScanTime ≤ now)
    (hnow : now < lastAccepted + s.minScanInterval) :
    handleScanResult handler s now (some barcode) = (s, []) := by
  have hrl : now - s.lastScanTime < s.minScanInterval := by omega
  simp [handleScanResult, hscan, hpause, hrl]

/-- A scanning session whose last accepted scan was admitted at t = 900
(and whose rate clock was touched again at t = 1000). -/
def c8State : ScannerState :=
  { continuous := true, allowDuplicates := true, enableHapticFeedback := true
    pauseBetweenScans := 1500, isScanning := true, lastScanTime := 1000 }

/-- Witness for C8: an event at t = 2000, 1100 ms after the last accepted
scan, is dropped entirely. -/
theorem claim_C8_witness :
    c8State.isScanning = true ∧ c8State.isPaused = false ∧
    900 ≤ c8State.lastScanTime ∧ 2000 < 900 + c8State.minScanInterval ∧
    c8State.lastScanTime ≤ 2000 ∧
    handleScanResult (fun _ => Except.ok ()) c8State 2000 (some "12345678") = (c8State, []) :=
  ⟨rfl, rfl, by decide, by decide, by decide,
   claim_C8_rate_limit (fun _ => Except.ok ()) c8State 2000 900 "12345678"
     rfl rfl (by decide) (by decide) (by decide)⟩

/-- The C7 scenario configuration: duplicates explicitly disallowed. -/
def c7Config : ScannerConfig := { continuous := some true, allowDuplicates := some false }

/-- A handler that always succeeds. -/
def c7Handler : String → Except String Unit := fun _ => Except.ok ()

/-- The session after configuring, starting the camera, and completing one
scan of `"883929736171"` at t = 3000. -/
def c7s1 : ScannerState :=
  (handleScanResult c7Handler (startCameraState (ScannerManager.init c7Config))
    3000 (some "883929736171")).1

/-- The second decode event for the same barcode at t = 6000. -/
def c7step2 : ScannerState × List ScanEvent :=
  handleScanResult c7Handler c7s1 6000 (some "883929736171")

/-- **C7 (code bug).** `this.allowDuplicates = config.allowDuplicates || true`
(part_004 line 15) evaluates to `true` for *every* configuration — so in a
session configured with `allowDuplicates: false`, a barcode already in the
completed set is accepted again and the handler is invoked a second time,
contrary to the claim (and to the dead rejection checks at lines 168–171 and
244–247; line 16 shows the `!== false` pattern the author used for the
neighbouring flag). -/
theorem claim_C7_allowDuplicates_bug :
    (∀ cfg : ScannerConfig, (ScannerManager.init cfg).allowDuplicates = true) ∧
    (ScannerManager.init c7Config).allowDuplicates = true ∧
    c7s1.scannedBarcodes = ["883929736171"] ∧
    ScanEvent.handlerInvoked "883929736171" ∈ c7step2.2 := by
  refine ⟨?_, by decide, by decide, by decide⟩
  intro cfg
  cases h : cfg.allowDuplicates with
  | none => simp [ScannerManager.init, jsOrBool, h]
  | some b => cases b <;> simp [ScannerManager.init, jsOrBool, h]

/-- A handler that always fails. -/
def c6FailHandler : String → Except String Unit := fun _ => Except.error "lookup failed"

/-- **C6, counterexample.** A manual entry of a valid barcode whose handler
fails: `addManualBarcode` returns `false` and surfaces the error, but the
barcode *is* in the completed set afterwards (it is added before the handler
runs and never removed in the catch), contradicting the claim's "never added
to the completed set" for the manual path. -/
theorem claim_C6_counterexample :
    (addManualBarcode c6FailHandler (ScannerManager.init {}) "12345678").1 = false ∧
    "12345678" ∈
      (addManualBarcode c6FailHandler (ScannerManager.init {}) "12345678").2.1.scannedBarcodes ∧
    ScanEvent.errorSurfaced "lookup failed" "manual_processing" ∈
      (addManualBarcode c6FailHandler (ScannerManager.init {}) "12345678").2.2 := by
  decide

/-- **C6, amended.** For camera-sourced barcodes, a handler failure removes
the barcode from the in-flight map, leaves the completed set unchanged, and
surfaces the error.  Manual entry passes the same in-flight, duplicate and
8–18-digit format checks and also surfaces handler errors — but it never
touches the in-flight map, and it adds the barcode to the completed set
*before* invoking the handler, where it remains on failure. -/
theorem claim_C6_handler_failure_amended :
    (∀ (handler : String → Except String Unit) (s : ScannerState) (barcode err : String),
      isValidBarcode barcode.toList = true →
      handler barcode = Except.error err →
      (processBarcode handler s barcode).1.processingBarcodes =
        CacheManager.objDel s.processingBarcodes barcode ∧
      (processBarcode handler s barcode).1.scannedBarcodes = s.scannedBarcodes ∧
      ScanEvent.errorSurfaced err "barcode_processing" ∈ (processBarcode handler s barcode).2) ∧
    (∀ (handler : String → Except String Unit) (s : ScannerState) (barcode err : String),
      mapHas s.processingBarcodes (jsTrimStr barcode) = false →
      barcode ≠ "" →
      isValidBarcode (jsTrimStr barcode).toList = true →
      (!s.allowDuplicates && decide (jsTrimStr barcode ∈ s.scannedBarcodes)) = false →
      handler (jsTrimStr barcode) = Except.error err →
      (addManualBarcode handler s barcode).1 = false ∧
      (addManualBarcode handler s barcode).2.1.scannedBarcodes =
        setAdd s.scannedBarcodes (jsTrimStr barcode) ∧
      (addManualBarcode handler s barcode).2.1.processingBarcodes = s.processingBarcodes ∧
      ScanEvent.errorSurfaced err "manual_processing" ∈ (addManualBarcode handler s barcode).2.2) := by
  constructor
  · intro handler s barcode err hval hfail
    simp only [processBarcode, hval, Bool.not_true, Bool.false_eq_true, if_false, hfail]
    by_cases hc : s.continuous = true <;> simp [hc]
  · intro handler s barcode err hpre hne hval hdup hfail
    simp only [addManualBarcode, hpre, Bool.false_eq_true, if_false, hne, hval,
      Bool.not_true, Bool.or_false, hdup, hfail]
    simp [hne, hval]

/-- Witness for C6: both amended conclusions discharged at the fresh session,
the valid barcode `"12345678"` and the always-failing handler. -/
theorem claim_C6_witness :
    (isValidBarcode ("12345678" : String).toList = true ∧
      (processBarcode c6FailHandler (ScannerManager.init {}) "12345678").1.scannedBarcodes =
        (ScannerManager.init {}).scannedBarcodes) ∧
    (addManualBarcode c6FailHandler (ScannerManager.init {}) "12345678").2.1.processingBarcodes =
      (ScannerManager.init {}).processingBarcodes :=
  ⟨⟨by decide,
    (claim_C6_handler_failure_amended.1 c6FailHandler (ScannerManager.init {}) "12345678"
      "lookup failed" (by decide) rfl).2.1⟩,
   (claim_C6_handler_failure_amended.2 c6FailHandler (ScannerManager.init {}) "12345678"
      "lookup failed" (by decide) (by decide) (by decide) (by decide) rfl).2.2.1⟩

/-! ### C2: LRU eviction -/

/-- Comparison by `lastUsed` is total. -/
instance : IsTotal EvictItem (fun a b => a.lastUsed ≤ b.lastUsed) :=
  ⟨fun a b => Nat.le_total a.lastUsed b.lastUsed⟩

/-- Comparison by `lastUsed` is transitive. -/
instance : IsTrans EvictItem (fun a b => a.lastUsed ≤ b.lastUsed) :=
  ⟨fun _ _ _ => Nat.le_trans⟩

/-- The eviction loop removes a prefix of its candidate list (oldest first). -/
theorem evictLoopTake {V : Type} (lenv : StorageVal V → Nat) (quota : Nat) (cfg : Config) :
    ∀ (items : List EvictItem) (total : ℤ) (s : CMState V),
      ∃ k, (evictLoop lenv quota cfg total items s).2 = items.take k := by
  intro items
  induction items with
  | nil => exact fun _ _ => ⟨0, rfl⟩
  | cons it rest ih =>
    intro total s
    by_cases h : cfg.maxSizeBytes < (total : ℚ)
    · obtain ⟨k, hk⟩ := ih (total - (it.size : ℤ))
        { remove lenv quota cfg s it.cacheType it.key with
          stats := { (remove lenv quota cfg s it.cacheType it.key).stats with
            evictions := (remove lenv quota cfg s it.cacheType it.key).stats.evictions + 1 } }
      refine ⟨k + 1, ?_⟩
      simp only [evictLoop, h, if_true]
      simp [hk]
    · exact ⟨0, by simp [evictLoop, h]⟩

/-- When the loop stops, either the tracked total has come down to the
ceiling or every candidate was removed. -/
theorem evictLoopComplete {V : Type} (lenv : StorageVal V → Nat) (quota : Nat) (cfg : Config) :
    ∀ (items : List EvictItem) (total : ℤ) (s : CMState V),
      (((total - ((evictLoop lenv quota cfg total items s).2.map
          (fun e => (e.size : ℤ))).sum : ℤ) : ℚ) ≤ cfg.maxSizeBytes) ∨
      (evictLoop lenv quota cfg total items s).2 = items := by
  intro items
  induction items with
  | nil =>
    intro total s
    by_cases h : cfg.maxSizeBytes < (total : ℚ)
    · exact Or.inr rfl
    · exact Or.inl (by simp [evictLoop]; exact le_of_not_lt h)
  | cons it rest ih =>
    intro total s
    by_cases h : cfg.maxSizeBytes < (total : ℚ)
    · rcases ih (total - (it.size : ℤ))
        { remove lenv quota cfg s it.cacheType it.key with
          stats := { (remove lenv quota cfg s it.cacheType it.key).stats with
            evictions := (remove lenv quota cfg s it.cacheType it.key).stats.evictions + 1 } }
        with hle | hall
      · left
        simp only [evictLoop, h, if_true]
        simp only [List.map_cons, List.sum_cons] at hle ⊢
        convert hle using 2
        ring
      · right
        simp only [evictLoop, h, if_true]
        simp [hall]
    · exact Or.inl (by simp [evictLoop, h]; exact le_of_not_lt h)

/-- The C2 scenario configuration: a 1000-byte ceiling (see
`claim_C2_lru_eviction` for the constructor link). -/
def c2cfg : Config := { pfx := "p_", maxSizeBytes := 1000, defaultExpiryMs := 86400000 }

/-- The byte-cost environment of the scenario: every entry serialises to 400
bytes; index objects are charged elsewhere (set to 0 here). -/
def c2len : StorageVal String → Nat := fun v =>
  match v with
  | StorageVal.item _ => 400
  | StorageVal.index _ => 0

/-- Insert A at t = 10. -/
def c2s1 : CMState String := CacheManager.set c2len 1000000 c2cfg 10 { storage := [] } "ns" "A" "a" none

/-- Insert B at t = 20. -/
def c2s2 : CMState String := CacheManager.set c2len 1000000 c2cfg 20 c2s1 "ns" "B" "b" none

/-- `get(A)` at t = 30 (the LRU touch). -/
def c2s3 : CMState String := (CacheManager.get c2len 1000000 c2cfg 30 c2s2 "ns" "A").2

/-- Insert C at t = 40, with the eviction log of the enforcement pass. -/
def c2s4 : CMState String × List EvictItem :=
  CacheManager.setLog c2len 1000000 c2cfg 40 c2s3 "ns" "C" "c" none

/-- **C2.** After each `set`, eviction enforcement removes candidates taken
from all namespaces in ascending `lastUsedAt` order (the removed items are a
prefix of the stably sorted candidate list, which is a permutation of the
gathered candidates) until the tracked total is at or below the ceiling or no
candidates remain.  In the scenario — 1000-byte ceiling, 400-byte entries A,
B, C inserted at t = 10, 20, 40 with `get(A)` at t = 30 — the eviction
triggered by C's insert removes exactly B (`lastUsed = 20`), while A
(refreshed to 30) and C survive. -/
theorem claim_C2_lru_eviction :
    (∀ (V : Type) (lenv : StorageVal V → Nat) (quota : Nat) (cfg : Config)
       (s : CMState V) (force : Bool),
      ∃ k, (enforceSizeLimitLog lenv quota cfg s force).2 =
        (sortByLastUsed (gatherAllItems cfg s.storage)).take k) ∧
    (∀ l : List EvictItem,
      (sortByLastUsed l).Sorted (fun a b => a.lastUsed ≤ b.lastUsed) ∧
      (sortByLastUsed l).Perm l) ∧
    (∀ (V : Type) (lenv : StorageVal V → Nat) (quota : Nat) (cfg : Config)
       (s : CMState V) (force : Bool),
      ((((getTotalSize cfg s.storage : ℤ) -
          (((enforceSizeLimitLog lenv quota cfg s force).2.map
            (fun e => (e.size : ℤ))).sum) : ℤ) : ℚ) ≤ cfg.maxSizeBytes) ∨
      (enforceSizeLimitLog lenv quota cfg s force).2 =
        sortByLastUsed (gatherAllItems cfg s.storage)) ∧
    (c2cfg = CacheManager.mkCacheManager "p_" (1000 / (1024 * 1024)) 24 ∧
     c2s4.2.map (fun e => e.key) = ["B"] ∧
     (objGet c2s4.1.storage (storageKey c2cfg "ns" "A")).isSome = true ∧
     (objGet c2s4.1.storage (storageKey c2cfg "ns" "B")).isSome = false ∧
     (objGet c2s4.1.storage (storageKey c2cfg "ns" "C")).isSome = true ∧
     getCacheIndex c2s4.1.storage c2cfg "ns" =
       [("A", { size := 400, lastUsed := 30 }), ("C", { size := 400, lastUsed := 40 })]) := by
  refine ⟨?_, ?_, ?_, ?_, ?_, ?_, ?_, ?_, ?_⟩
  · intro V lenv quota cfg s force
    by_cases h : force = false ∧ ((getTotalSize cfg s.storage : ℤ) : ℚ) < cfg.maxSizeBytes
    · have h2 : ((getTotalSize cfg s.storage : ℚ)) < cfg.maxSizeBytes := by
        exact_mod_cast h.2
      exact ⟨0, by simp [enforceSizeLimitLog, h.1, h.2, h2]⟩
    · simp only [enforceSizeLimitLog, h, if_false]
      exact evictLoopTake lenv quota cfg _ _ s
  · intro l
    exact ⟨List.sorted_insertionSort _ l, List.perm_insertionSort _ l⟩
  · intro V lenv quota cfg s force
    by_cases h : force = false ∧ ((getTotalSize cfg s.storage : ℤ) : ℚ) < cfg.maxSizeBytes
    · left
      simp only [enforceSizeLimitLog, h.1, h.2]
      simp only [and_self, if_true, List.map_nil, List.sum_nil, sub_zero]
      exact le_of_lt h.2
    · simp only [enforceSizeLimitLog, h, if_false]
      exact evictLoopComplete lenv quota cfg _ _ s
  · simp [c2cfg, CacheManager.mkCacheManager]
    norm_num
  · decide
  · decide
  · decide
  · decide
  · decide

/-! ### C10: store/index consistency across the quota-recovery path -/

/-- Byte costs for the C10 scenario: an entry costs its payload length, the
index objects are charged elsewhere (0 here). -/
def c10len : StorageVal String → Nat := fun v =>
  match v with
  | StorageVal.item it => it.data.length
  | StorageVal.index _ => 0

/-- The configuration of an earlier session with a 1 MiB ceiling (localStorage
persists across sessions, so entries indexed under a larger ceiling are
reachable states for a later, smaller-ceiling configuration). -/
def c10cfgOld : Config := { pfx := "p_", maxSizeBytes := 1048576, defaultExpiryMs := 86400000 }

/-- The current session's configuration: a 500-byte ceiling over the same
prefix. -/
def c10cfg : Config := { pfx := "p_", maxSizeBytes := 500, defaultExpiryMs := 86400000 }

/-- A 600-byte payload. -/
def c10x : String := String.mk (List.replicate 600 'x')

/-- Another 600-byte payload. -/
def c10y : String := String.mk (List.replicate 600 'y')

/-- The persisted state: X written (and indexed) by the earlier session. -/
def c10s1 : CMState String :=
  CacheManager.set c10len 1000 c10cfgOld 10 { storage := [] } "ns" "X" c10x none

/-- The current session's `set` of Y under a 1000-byte browser quota:
the first write exceeds the quota, forced eviction removes X, the retry
succeeds. -/
def c10res : CMState String × List EvictItem :=
  CacheManager.setLog c10len 1000 c10cfg 20 c10s1 "ns" "Y" c10y none

set_option maxRecDepth 100000 in
/-- **C10 (code bug).** On the quota-recovery path of `set` (first write
rejected, forced eviction, successful retry — cache.js lines 144–155), the
retried entry is stored but `_saveCacheIndex` is never called for it: the
key is absent from the namespace index, contributes 0 to `getTotalSize`, and
is not an eviction candidate — the entry is orphaned, violating the
store/index invariant the claim states (and spec §4.1's "every `set` …
records it in the namespace's index").  The conjuncts below evaluate the
code on the failing input: the first write is indeed rejected for capacity,
the retry stores Y, yet the index knows nothing of it. -/
theorem claim_C10_recovery_orphan :
    lsSetItem c10len 1000 c10s1.storage (storageKey c10cfg "ns" "Y")
      (StorageVal.item { data := c10y, expiry := 20 + c10cfg.defaultExpiryMs }) = none ∧
    getCacheIndex c10s1.storage c10cfgOld "ns" = [("X", { size := 600, lastUsed := 10 })] ∧
    (objGet c10res.1.storage (storageKey c10cfg "ns" "Y")).isSome = true ∧
    (objGet c10res.1.storage (storageKey c10cfg "ns" "X")).isSome = false ∧
    objGet (getCacheIndex c10res.1.storage c10cfg "ns") "Y" = none ∧
    getTotalSize c10cfg c10res.1.storage = 0 ∧
    gatherAllItems c10cfg c10res.1.storage = [] := by
  decide

/-! ### C1: request coalescing on `lookupUPCData` -/

/-- Reading back a key just written (JavaScript `m.set(k, v); m.get(k)`). -/
theorem objGetSetSelf {α : Type} (m : List (String × α)) (k : String) (v : α) :
    objGet (objSet m k v) k = some v := by
  induction m with
  | nil => simp [objSet, objGet]
  | cons p rest ih =>
    obtain ⟨k', v'⟩ := p
    by_cases h : k' = k
    · simp [objSet, objGet, h]
    · simp [objSet, objGet, h, ih]

/-- Reading back a key just deleted. -/
theorem objGetDelSelf {α : Type} (m : List (String × α)) (k : String) :
    objGet (objDel m k) k = none := by
  induction m with
  | nil => simp [objDel, objGet]
  | cons p rest ih =>
    obtain ⟨k', v'⟩ := p
    by_cases h : k' = k
    · simpa [objDel, objGet, h] using ih
    · simpa [objDel, objGet, h] using ih

/-- `CacheManager.get` on an absent storage key is a pure miss: it returns
nothing and leaves the storage untouched (only `stats.misses` moves). -/
theorem cmGetMiss {V : Type} (lenv : StorageVal V → Nat) (quota : Nat) (cfg : Config)
    (now : Nat) (pc : CMState V) (t k : String)
    (h : objGet pc.storage (storageKey cfg t k) = none) :
    (CacheManager.get lenv quota cfg now pc t k).1 = none ∧
    (CacheManager.get lenv quota cfg now pc t k).2.storage = pc.storage := by
  simp [CacheManager.get, h]

/-- The invariant carried through a burst: no cached value for the key in
either tier. -/
def noCachedValue (st : MediaLookupUtils.MLState) (barcode : String) : Prop :=
  objGet st.sessionCache (upcCacheKey barcode) = none ∧
  (∀ pc, st.persistent = some pc →
    objGet pc.storage (storageKey mlCfg "upc" (upcCacheKey barcode)) = none)

/-- A caller arriving while the operation is pending attaches to it and
changes nothing observable (the persistent tier only counts a miss). -/
theorem lookupPhase1Await (lenv : StorageVal MediaLookupUtils.CacheVal → Nat) (quota : Nat)
    (now : Nat) (st : MediaLookupUtils.MLState) (barcode : String) (freshOp op0 : Nat)
    (hnc : noCachedValue st barcode)
    (hpending : objGet st.pending (upcCacheKey barcode) = some op0) :
    (lookupPhase1 lenv quota now st barcode freshOp).1 = LookupOutcome.awaitOp op0 ∧
    (lookupPhase1 lenv quota now st barcode freshOp).2.sessionCache = st.sessionCache ∧
    (lookupPhase1 lenv quota now st barcode freshOp).2.pending = st.pending ∧
    noCachedValue (lookupPhase1 lenv quota now st barcode freshOp).2 barcode := by
  obtain ⟨hsession, hstore⟩ := hnc
  cases hp : st.persistent with
  | none =>
    simp [lookupPhase1, hsession, hp, hpending]
    exact ⟨hsession, by simp [hp]⟩
  | some pc =>
    obtain ⟨hmiss, hst⟩ := cmGetMiss lenv quota mlCfg now pc "upc" (upcCacheKey barcode)
      (hstore pc hp)
    simp [lookupPhase1, hsession, hp, hmiss, hpending]
    refine ⟨hsession, ?_⟩
    intro pc' hpc'
    simp at hpc'
    rw [← hpc', hst]
    exact hstore pc hp

/-- The first caller starts the operation (invoking `_fetchUPCData`, i.e. the
network fetch) and registers it as pending. -/
theorem lookupPhase1Start (lenv : StorageVal MediaLookupUtils.CacheVal → Nat) (quota : Nat)
    (now : Nat) (st : MediaLookupUtils.MLState) (barcode : String) (freshOp : Nat)
    (hnc : noCachedValue st barcode)
    (hpending : objGet st.pending (upcCacheKey barcode) = none) :
    (lookupPhase1 lenv quota now st barcode freshOp).1 = LookupOutcome.startOp freshOp ∧
    (lookupPhase1 lenv quota now st barcode freshOp).2.sessionCache = st.sessionCache ∧
    (lookupPhase1 lenv quota now st barcode freshOp).2.pending =
      objSet st.pending (upcCacheKey barcode) freshOp ∧
    noCachedValue (lookupPhase1 lenv quota now st barcode freshOp).2 barcode := by
  obtain ⟨hsession, hstore⟩ := hnc
  cases hp : st.persistent with
  | none =>
    simp [lookupPhase1, hsession, hp, hpending]
    exact ⟨hsession, by simp [hp]⟩
  | some pc =>
    obtain ⟨hmiss, hst⟩ := cmGetMiss lenv quota mlCfg now pc "upc" (upcCacheKey barcode)
      (hstore pc hp)
    simp [lookupPhase1, hsession, hp, hmiss, hpending]
    refine ⟨hsession, ?_⟩
    intro pc' hpc'
    simp at hpc'
    rw [← hpc', hst]
    exact hstore pc hp

/-- Every caller of a burst that begins with the operation pending attaches
to that same operation; nothing is started and the invariant persists. -/
theorem burstPhase1Pending (lenv : StorageVal MediaLookupUtils.CacheVal → Nat) (quota : Nat)
    (now : Nat) (barcode : String) (op0 : Nat) :
    ∀ (n : Nat) (st : MediaLookupUtils.MLState) (nextOp : Nat),
      noCachedValue st barcode →
      objGet st.pending (upcCacheKey barcode) = some op0 →
      (burstPhase1 lenv quota now barcode n st nextOp).1 =
        List.replicate n (LookupOutcome.awaitOp op0) ∧
      (burstPhase1 lenv quota now barcode n st nextOp).2.2 = 0 ∧
      (burstPhase1 lenv quota now barcode n st nextOp).2.1.pending = st.pending ∧
      noCachedValue (burstPhase1 lenv quota now barcode n st nextOp).2.1 barcode := by
  intro n
  induction n with
  | zero => exact fun st nextOp hnc hp => ⟨rfl, rfl, rfl, hnc⟩
  | succ n ih =>
    intro st nextOp hnc hp
    obtain ⟨h1, h2, h3, h4⟩ := lookupPhase1Await lenv quota now st barcode nextOp op0 hnc hp
    have hp' : objGet (lookupPhase1 lenv quota now st barcode nextOp).2.pending
        (upcCacheKey barcode) = some op0 := by rw [h3]; exact hp
    obtain ⟨ih1, ih2, ih3, ih4⟩ :=
      ih (lookupPhase1 lenv quota now st barcode nextOp).2 nextOp h4 hp'
    refine ⟨?_, ?_, ?_, ?_⟩
    · simp only [burstPhase1, h1]
      simp [ih1, List.replicate_succ]
    · simp only [burstPhase1, h1]
      simpa using ih2
    · simp only [burstPhase1, h1]
      simpa [h3] using ih3
    · simp only [burstPhase1, h1]
      simpa using ih4

/-- **C1.** For a burst of `N ≥ 2` concurrent `lookupUPCData(barcode)` calls
issued while no cached value exists for the key and no operation is pending:
exactly one `_fetchUPCData` operation is started (one network fetch), the
first caller starts it and all later callers attach to the same operation
(so every caller's promise resolves to that operation's eventual result,
success or failure), and once the operation settles the starter's `finally`
removes the pending entry — after a failed settle a fresh call starts a
fresh operation. -/
theorem claim_C1_coalescing (lenv : StorageVal MediaLookupUtils.CacheVal → Nat) (quota : Nat)
    (now : Nat) (st : MediaLookupUtils.MLState) (barcode : String) (N op0 : Nat)
    (hN : 2 ≤ N)
    (hsession : objGet st.sessionCache (upcCacheKey barcode) = none)
    (hstore : ∀ pc, st.persistent = some pc →
      objGet pc.storage (storageKey mlCfg "upc" (upcCacheKey barcode)) = none)
    (hpending : objGet st.pending (upcCacheKey barcode) = none) :
    (burstPhase1 lenv quota now barcode N st op0).2.2 = 1 ∧
    (burstPhase1 lenv quota now barcode N st op0).1 =
      LookupOutcome.startOp op0 :: List.replicate (N - 1) (LookupOutcome.awaitOp op0) ∧
    (∀ (ops : Nat → Except Str MediaLookupUtils.CacheVal) (o : LookupOutcome),
      o ∈ (burstPhase1 lenv quota now barcode N st op0).1 →
      callerResult ops o = ops op0) ∧
    (∀ result : Except Str MediaLookupUtils.CacheVal,
      objGet (settleStarter lenv quota now
        (burstPhase1 lenv quota now barcode N st op0).2.1 barcode result).pending
        (upcCacheKey barcode) = none) ∧
    (∀ (e : Str) (freshOp : Nat),
      (lookupPhase1 lenv quota now
        (settleStarter lenv quota now (burstPhase1 lenv quota now barcode N st op0).2.1
          barcode (Except.error e)) barcode freshOp).1 = LookupOutcome.startOp freshOp) := by
  obtain ⟨n, rfl⟩ : ∃ n, N = n + 1 := ⟨N - 1, by omega⟩
  obtain ⟨s1, s2, s3, s4⟩ :=
    lookupPhase1Start lenv quota now st barcode op0 ⟨hsession, hstore⟩ hpending
  have hp1 : objGet (lookupPhase1 lenv quota now st barcode op0).2.pending
      (upcCacheKey barcode) = some op0 := by rw [s3]; exact objGetSetSelf _ _ _
  obtain ⟨b1, b2, b3, b4⟩ := burstPhase1Pending lenv quota now barcode op0 n
    (lookupPhase1 lenv quota now st barcode op0).2 (op0 + 1) s4 hp1
  have houts : (burstPhase1 lenv quota now barcode (n + 1) st op0).1 =
      LookupOutcome.startOp op0 :: List.replicate n (LookupOutcome.awaitOp op0) := by
    simp only [burstPhase1, s1]
    simp [b1]
  have hcnt : (burstPhase1 lenv quota now barcode (n + 1) st op0).2.2 = 1 := by
    simp only [burstPhase1, s1]
    simp [b2]
  have hstate : (burstPhase1 lenv quota now barcode (n + 1) st op0).2.1 =
      (burstPhase1 lenv quota now barcode n (lookupPhase1 lenv quota now st barcode op0).2
        (op0 + 1)).2.1 := by
    simp only [burstPhase1, s1]
  have hpend : objGet (burstPhase1 lenv quota now barcode (n + 1) st op0).2.1.pending
      (upcCacheKey barcode) = some op0 := by
    rw [hstate, b3]
    exact hp1
  refine ⟨hcnt, by simpa using houts, ?_, ?_, ?_⟩
  · intro ops o ho
    rw [houts] at ho
    rcases List.mem_cons.mp ho with h | h
    · rw [h]; rfl
    · rw [List.eq_of_mem_replicate h]; rfl
  · intro result
    cases result with
    | ok v => simp [settleStarter, objGetDelSelf]
    | error e => simp [settleStarter, objGetDelSelf]
  · intro e freshOp
    have hset : (settleStarter lenv quota now
        (burstPhase1 lenv quota now barcode (n + 1) st op0).2.1 barcode
        (Except.error e)) =
        { (burstPhase1 lenv quota now barcode (n + 1) st op0).2.1 with
          pending := objDel (burstPhase1 lenv quota now barcode (n + 1) st op0).2.1.pending
            (upcCacheKey barcode) } := by
      simp [settleStarter]
    rw [hset]
    have hnc2 : noCachedValue
        { (burstPhase1 lenv quota now barcode (n + 1) st op0).2.1 with
          pending := objDel (burstPhase1 lenv quota now barcode (n + 1) st op0).2.1.pending
            (upcCacheKey barcode) } barcode := by
      obtain ⟨c1, c2⟩ : noCachedValue (burstPhase1 lenv quota now barcode (n + 1) st op0).2.1
          barcode := by rw [hstate]; exact b4
      exact ⟨c1, c2⟩
    exact (lookupPhase1Start lenv quota now _ barcode freshOp hnc2
      (objGetDelSelf _ _)).1

/-- Witness for C1: a burst of two callers on the fresh lookup state. -/
theorem claim_C1_witness :
    2 ≤ 2 ∧
    (burstPhase1 (fun _ => 0) 1000000 5 "012345678905" 2 mlInit 0).2.2 = 1 ∧
    (burstPhase1 (fun _ => 0) 1000000 5 "012345678905" 2 mlInit 0).1 =
      [LookupOutcome.startOp 0, LookupOutcome.awaitOp 0] :=
  ⟨by decide,
   (claim_C1_coalescing (fun _ => 0) 1000000 5 mlInit "012345678905" 2 0 (by decide)
      (by decide)
      (by intro pc hpc
          simp [mlInit] at hpc
          rw [← hpc]
          decide)
      (by decide)).1,
   by
    have h := (claim_C1_coalescing (fun _ => 0) 1000000 5 mlInit "012345678905" 2 0 (by decide)
      (by decide)
      (by intro pc hpc
          simp [mlInit] at hpc
          rw [← hpc]
          decide)
      (by decide)).2.1
    simpa using h⟩

/-! ### C3: the no-match placeholder and what the caller actually receives -/

/-- "All search strategies yield no usable candidates": every query either
fails, returns no results, or returns no movie/tv results. -/
def noUsableResults (env : SearchEnv) : Prop :=
  ∀ q : Str,
    match env.search q with
    | none => True
    | some rs =>
      rs = [] ∨ rs.filter (fun item => item.media_type = "movie" ∨ item.media_type = "tv") = []

/-- Under `noUsableResults`, the strategy loop never updates its running
best, whatever the strategies. -/
theorem searchLoopNoUsable (env : SearchEnv) (hnu : noUsableResults env)
    (title : Str) (year : Option Nat) :
    ∀ (strats : List Strategy) (best : Option TMDBItem) (bestScore : ℚ),
      searchLoop env title year strats best bestScore = (best, bestScore) := by
  intro strats
  induction strats with
  | nil => intro best bestScore; rfl
  | cons strat rest ih =>
    intro best bestScore
    have h := hnu strat.query
    cases hq : env.search strat.query with
    | none => simp [searchLoop, hq, ih]
    | some rs =>
      rw [hq] at h
      rcases h with h | h
      · simp [searchLoop, hq, h, ih]
      · by_cases hrs : rs = []
        · simp [searchLoop, hq, hrs, ih]
        · have h2 : List.filter
              (fun item => decide (item.media_type = "movie") || decide (item.media_type = "tv"))
              rs = [] := by
            simpa using h
          simp [searchLoop, hq, hrs, h2, ih]

/-- With no usable results anywhere and a non-blank title, `_searchTMDB`
returns the synthesized placeholder. -/
theorem searchTMDBInternalNoMatch (env : SearchEnv) (hnu : noUsableResults env)
    (now : Nat) (title : Str) (year : Option Nat)
    (ht0 : title ≠ []) (ht : jsTrim title ≠ []) :
    searchTMDBInternal env now title year false =
      Except.ok (noResultPlaceholder now title) := by
  have h1 : title.isEmpty = false := isEmptyFalseOfNe ht0
  have h2 : (jsTrim title).isEmpty = false := isEmptyFalseOfNe ht
  simp [searchTMDBInternal, h1, h2, searchLoopNoUsable env hnu title year]

/-- The session key of a UPC lookup never collides with a TMDB cache key
(they start `upc_` and `tmdb_`). -/
theorem upcKeyNeTmdbKey (b : String) (t : Str) (y : Option Nat) (em : Bool) :
    upcCacheKey b ≠ tmdbCacheKey t y em := by
  intro h
  have h1 : (upcCacheKey b).data.head? = some 'u' := rfl
  have h2 : (tmdbCacheKey t y em).data.head? = some 't' := by
    unfold tmdbCacheKey
    by_cases hem : em = true <;> simp [hem, String.data_append]
  rw [h] at h1
  exact absurd (h1.symm.trans h2) (by decide)

/-- UPC entry storage keys never collide with TMDB entry storage keys. -/
theorem storageKeyUpcNeTmdb (k1 k2 : String) :
    storageKey mlCfg "upc" k1 ≠ storageKey mlCfg "tmdb" k2 := by
  intro h
  have h2 := congrArg String.data h
  simp only [storageKey, String.data_append, List.append_assoc, mlCfg] at h2
  have h3 := List.append_cancel_left h2
  have h4 : (("upc" : String).data ++ (("_" : String).data ++ k1.data)).head? = some 'u' := rfl
  rw [h3] at h4
  have h5 : (("tmdb" : String).data ++ (("_" : String).data ++ k2.data)).head? = some 't' := rfl
  exact absurd (h4.symm.trans h5) (by decide)

/-- The UPC entry storage key is distinct from the UPC index key. -/
theorem storageKeyUpcNeIndexUpc (k : String) :
    storageKey mlCfg "upc" k ≠ indexKey mlCfg "upc" := by
  intro h
  have h2 := congrArg String.data h
  simp only [storageKey, indexKey, String.data_append, List.append_assoc, mlCfg] at h2
  have h3 := List.append_cancel_left h2
  have h4 : (("upc" : String).data ++ (("_" : String).data ++ k.data)).head? = some 'u' := rfl
  rw [h3] at h4
  exact absurd h4 (by decide)

/-- No namespace-index key (of any cache type) collides with a TMDB entry
storage key. -/
theorem indexKeyNeStorageTmdb (ct k : String) :
    indexKey mlCfg ct ≠ storageKey mlCfg "tmdb" k := by
  intro h
  have h2 := congrArg String.data h
  simp only [storageKey, indexKey, String.data_append, List.append_assoc, mlCfg] at h2
  have h3 := List.append_cancel_left h2
  have h4 : (("_index_" : String).data ++ ct.data).head? = some '_' := rfl
  rw [h3] at h4
  have h5 : (("tmdb" : String).data ++ (("_" : String).data ++ k.data)).head? = some 't' := rfl
  exact absurd (h4.symm.trans h5) (by decide)

/-- Writing one key leaves reads of a different key unchanged. -/
theorem objGetSetNe {α : Type} (m : List (String × α)) (k K : String) (v : α)
    (h : k ≠ K) : objGet (objSet m k v) K = objGet m K := by
  induction m with
  | nil => simp [objSet, objGet, h]
  | cons p rest ih =>
    obtain ⟨k1, v1⟩ := p
    by_cases hk : k1 = k
    · subst hk
      simp [objSet, objGet, h]
    · simp only [objSet, if_neg hk]
      by_cases hK : k1 = K
      · simp [objGet, hK]
      · simp [objGet, hK, ih]

/-- Deleting a key cannot make an absent key present. -/
theorem objGetDelNone {α : Type} (m : List (String × α)) (k K : String)
    (h : objGet m K = none) : objGet (objDel m k) K = none := by
  induction m with
  | nil => simp [objDel, objGet]
  | cons p rest ih =>
    obtain ⟨k1, v1⟩ := p
    by_cases hK : k1 = K
    · simp [objGet, hK] at h
    · rw [objGet, if_neg hK] at h
      by_cases hk : k1 = k
      · simpa [objDel, hk] using ih h
      · simpa [objDel, objGet, hk, hK] using ih h

/-- A successful `localStorage.setItem` stores exactly the written object. -/
theorem lsSetItemSome {V : Type} (lenv : StorageVal V → Nat) (quota : Nat)
    (m : Storage V) (k : String) (v : StorageVal V) (m2 : Storage V)
    (h : lsSetItem lenv quota m k v = some m2) : m2 = objSet m k v := by
  unfold lsSetItem at h
  by_cases hq : usedBytes lenv (objSet m k v) ≤ quota
  · rw [if_pos hq] at h
    exact (Option.some.inj h).symm
  · rw [if_neg hq] at h
    exact absurd h (by simp)

/-- `_saveCacheIndex` (which only ever writes index keys) preserves the
absence of a TMDB entry key. -/
theorem tmdbMissSaveIndex (lenv : StorageVal MediaLookupUtils.CacheVal → Nat)
    (quota : Nat) (s : CMState MediaLookupUtils.CacheVal) (ct : String)
    (idx : IndexObj) (tk : String)
    (h : objGet s.storage (storageKey mlCfg "tmdb" tk) = none) :
    objGet (saveCacheIndex lenv quota mlCfg s ct idx).storage
      (storageKey mlCfg "tmdb" tk) = none := by
  unfold saveCacheIndex
  cases hls : lsSetItem lenv quota s.storage (indexKey mlCfg ct) (StorageVal.index idx) with
  | none => simpa using h
  | some st2 =>
    have := lsSetItemSome lenv quota _ _ _ _ hls
    subst this
    simpa using (objGetSetNe s.storage _ _ _ (indexKeyNeStorageTmdb ct tk)).trans h

/-- `remove` (a delete plus an index save) preserves the absence of a TMDB
entry key. -/
theorem tmdbMissRemove (lenv : StorageVal MediaLookupUtils.CacheVal → Nat)
    (quota : Nat) (s : CMState MediaLookupUtils.CacheVal) (ct k tk : String)
    (h : objGet s.storage (storageKey mlCfg "tmdb" tk) = none) :
    objGet (CacheManager.remove lenv quota mlCfg s ct k).storage
      (storageKey mlCfg "tmdb" tk) = none := by
  unfold CacheManager.remove
  exact tmdbMissSaveIndex lenv quota _ ct _ tk (objGetDelNone s.storage _ _ h)

/-- The eviction loop (removals and index saves only) preserves the absence
of a TMDB entry key. -/
theorem tmdbMissEvictLoop (lenv : StorageVal MediaLookupUtils.CacheVal → Nat)
    (quota : Nat) (tk : String) :
    ∀ (items : List EvictItem) (total : ℤ) (s : CMState MediaLookupUtils.CacheVal),
      objGet s.storage (storageKey mlCfg "tmdb" tk) = none →
      objGet (evictLoop lenv quota mlCfg total items s).1.storage
        (storageKey mlCfg "tmdb" tk) = none := by
  intro items
  induction items with
  | nil => intro total s h; simpa [evictLoop] using h
  | cons it rest ih =>
    intro total s h
    by_cases hc : mlCfg.maxSizeBytes < (total : ℚ)
    · simp only [evictLoop, hc, if_true]
      have h2 := tmdbMissRemove lenv quota s it.cacheType it.key tk h
      have h3 := ih (total - (it.size : ℤ))
        { CacheManager.remove lenv quota mlCfg s it.cacheType it.key with
          stats := { (CacheManager.remove lenv quota mlCfg s it.cacheType it.key).stats with
            evictions :=
              (CacheManager.remove lenv quota mlCfg s it.cacheType it.key).stats.evictions
                + 1 } } h2
      simpa using h3
    · simpa [evictLoop, hc] using h

/-- `_enforceSizeLimit` preserves the absence of a TMDB entry key. -/
theorem tmdbMissEnforce (lenv : StorageVal MediaLookupUtils.CacheVal → Nat)
    (quota : Nat) (s : CMState MediaLookupUtils.CacheVal) (force : Bool) (tk : String)
    (h : objGet s.storage (storageKey mlCfg "tmdb" tk) = none) :
    objGet (enforceSizeLimitLog lenv quota mlCfg s force).1.storage
      (storageKey mlCfg "tmdb" tk) = none := by
  unfold enforceSizeLimitLog
  by_cases hc : force = false ∧ ((getTotalSize mlCfg s.storage : ℤ) : ℚ) < mlCfg.maxSizeBytes
  · rw [if_pos hc]
    exact h
  · rw [if_neg hc]
    exact tmdbMissEvictLoop lenv quota tk _ _ s h

/-- `set` of a UPC entry (which writes only the `upc_*` storage key and
index keys, and may evict) preserves the absence of a TMDB entry key. -/
theorem tmdbMissSet (lenv : StorageVal MediaLookupUtils.CacheVal → Nat)
    (quota : Nat) (now : Nat) (s : CMState MediaLookupUtils.CacheVal)
    (k : String) (v : MediaLookupUtils.CacheVal) (eh : Option Nat) (tk : String)
    (h : objGet s.storage (storageKey mlCfg "tmdb" tk) = none) :
    objGet (CacheManager.set lenv quota mlCfg now s "upc" k v eh).storage
      (storageKey mlCfg "tmdb" tk) = none := by
  unfold CacheManager.set setLog
  generalize now + (match eh with
      | some hrs => if hrs = 0 then mlCfg.defaultExpiryMs else hrs * 60 * 60 * 1000
      | none => mlCfg.defaultExpiryMs) = E
  simp only []
  split
  case h_1 st1 hst1 =>
    have hst1e := lsSetItemSome lenv quota _ _ _ _ hst1
    subst hst1e
    apply tmdbMissEnforce
    apply tmdbMissSaveIndex
    exact (objGetSetNe s.storage _ _ _ (storageKeyUpcNeTmdb k tk)).trans h
  case h_2 hst1 =>
    split
    case h_1 st2 hst2 =>
      have hst2e := lsSetItemSome lenv quota _ _ _ _ hst2
      subst hst2e
      exact (objGetSetNe (enforceSizeLimit lenv quota mlCfg s true).storage _ _ _
        (storageKeyUpcNeTmdb k tk)).trans
        (by simpa [enforceSizeLimit] using tmdbMissEnforce lenv quota s true tk h)
    case h_2 hst2 =>
      simpa [enforceSizeLimit] using tmdbMissEnforce lenv quota s true tk h

/-- From the freshly initialised state, a UPC lookup whose fetch succeeds
misses both tiers, fetches, and settles: the record lands in the session
cache and is `set` into the persistent cache, with no pending entry left. -/
theorem lookupSeqInit (lenv : StorageVal MediaLookupUtils.CacheVal → Nat) (quota : Nat)
    (fetchUPC : String → Except Str UPCData) (now : Nat) (barcode : String) (u : UPCData)
    (hfetch : fetchUPC barcode = Except.ok u) :
    lookupUPCDataSeq lenv quota fetchUPC now mlInit barcode =
      (Except.ok (MediaLookupUtils.CacheVal.upc u),
       { sessionCache := [(upcCacheKey barcode, MediaLookupUtils.CacheVal.upc u)]
         persistent := some (CacheManager.set lenv quota mlCfg now
           { storage := [], stats := { misses := 1 } } "upc" (upcCacheKey barcode)
           (MediaLookupUtils.CacheVal.upc u) none)
         pending := [] }) := by
  simp [lookupUPCDataSeq, lookupPhase1, settleStarter, mlInit, objGet, objSet, objDel,
    CacheManager.get, hfetch, Except.map]

/-- `searchTMDBForTitle` under misses in both tiers and no pending entry,
when no strategy yields a usable candidate: the caller receives the
synthesized placeholder. -/
theorem searchSeqNoMatch (lenv : StorageVal MediaLookupUtils.CacheVal → Nat) (quota : Nat)
    (env : SearchEnv) (now : Nat) (st : MediaLookupUtils.MLState) (title : Str)
    (year : Option Nat) (hnu : noUsableResults env)
    (hsess : objGet st.sessionCache (tmdbCacheKey title year false) = none)
    (hpers : ∀ pc, st.persistent = some pc →
      objGet pc.storage (storageKey mlCfg "tmdb" (tmdbCacheKey title year false)) = none)
    (hpend : objGet st.pending (tmdbCacheKey title year false) = none)
    (ht0 : title ≠ []) (ht : jsTrim title ≠ []) :
    (searchTMDBForTitleSeq lenv quota env now st title year false).1 =
      Except.ok (noResultPlaceholder now title) := by
  have hint := searchTMDBInternalNoMatch env hnu now title year ht0 ht
  cases hp : st.persistent with
  | none => simp [searchTMDBForTitleSeq, hsess, hp, hpend, hint]
  | some pc =>
    obtain ⟨hmiss, hst⟩ := cmGetMiss lenv quota mlCfg now pc "tmdb" (tmdbCacheKey title year false)
      (hpers pc hp)
    simp [searchTMDBForTitleSeq, hsess, hp, hmiss, hpend, hint]

/-- The full no-match resolution from a fresh state: the caller receives a
resolved (not thrown) object whose `tmdbData` is the placeholder — except
that its `matchScore` has been overwritten with the fallback confidence `40`
(the cleaned title's self-similarity), not the placeholder's `0`. -/
theorem completeLookupNoMatch (lenv : StorageVal MediaLookupUtils.CacheVal → Nat)
    (quota : Nat) (fetchUPC : String → Except Str UPCData) (env : SearchEnv)
    (currentYear now : Nat) (barcode : String) (u : UPCData)
    (hfetch : fetchUPC barcode = Except.ok u) (hnu : noUsableResults env)
    (hct : cleanMovieTitle (some u.originalTitle) ≠ [])
    (hctt : jsTrim (cleanMovieTitle (some u.originalTitle)) ≠ []) :
    (completeMovieLookup lenv quota fetchUPC env currentYear now mlInit barcode).1 =
      Except.ok
        { upcData := MediaLookupUtils.CacheVal.upc u
          tmdbData := { noResultPlaceholder now (cleanMovieTitle (some u.originalTitle)) with
            matchScore := some 40 }
          physicalEdition := createPhysicalEditionData (MediaLookupUtils.CacheVal.upc u)
          cleanTitle := cleanMovieTitle (some u.originalTitle)
          extractedYear := extractYearFromTitle currentYear (some u.originalTitle)
          confidence := 40
          needsReview := true } := by
  have hA := lookupSeqInit lenv quota fetchUPC now barcode u hfetch
  have hsess : objGet [(upcCacheKey barcode, MediaLookupUtils.CacheVal.upc u)]
      (tmdbCacheKey (cleanMovieTitle (some u.originalTitle))
        (extractYearFromTitle currentYear (some u.originalTitle)) false) = none := by
    simp [objGet, upcKeyNeTmdbKey barcode (cleanMovieTitle (some u.originalTitle))
      (extractYearFromTitle currentYear (some u.originalTitle)) false]
  have hpc : objGet (CacheManager.set lenv quota mlCfg now
      { storage := [], stats := { misses := 1 } } "upc" (upcCacheKey barcode)
      (MediaLookupUtils.CacheVal.upc u) none).storage
      (storageKey mlCfg "tmdb" (tmdbCacheKey (cleanMovieTitle (some u.originalTitle))
        (extractYearFromTitle currentYear (some u.originalTitle)) false)) = none :=
    tmdbMissSet lenv quota now _ _ _ _ _ (by simp [objGet])
  have hB := searchSeqNoMatch lenv quota env now
    { sessionCache := [(upcCacheKey barcode, MediaLookupUtils.CacheVal.upc u)]
      persistent := some (CacheManager.set lenv quota mlCfg now
        { storage := [], stats := { misses := 1 } } "upc" (upcCacheKey barcode)
        (MediaLookupUtils.CacheVal.upc u) none)
      pending := [] }
    (cleanMovieTitle (some u.originalTitle))
    (extractYearFromTitle currentYear (some u.originalTitle)) hnu hsess
    (by intro pc hpc2
        simp only [Option.some.injEq] at hpc2
        rw [← hpc2]
        exact hpc)
    rfl hct hctt
  rcases hS : searchTMDBForTitleSeq lenv quota env now
    { sessionCache := [(upcCacheKey barcode, MediaLookupUtils.CacheVal.upc u)]
      persistent := some (CacheManager.set lenv quota mlCfg now
        { storage := [], stats := { misses := 1 } } "upc" (upcCacheKey barcode)
        (MediaLookupUtils.CacheVal.upc u) none)
      pending := [] }
    (cleanMovieTitle (some u.originalTitle))
    (extractYearFromTitle currentYear (some u.originalTitle)) false with ⟨res, stx⟩
  rw [hS] at hB
  simp only at hB
  subst hB
  simp only [completeMovieLookup, hA, MediaLookupUtils.CacheVal.originalTitleField, hS]
  simp [noResultPlaceholder, jsOrStr, truthyStr, needsManualReview,
    calcSimSelf (cleanMovieTitle (some u.originalTitle)) hct]

/-- **C3 (amended).** When every search strategy yields no usable candidate,
the resolution does not throw: the caller receives a resolved object whose
`tmdbData` is the synthesized placeholder (searched title as its name,
`needsManualReview = true`), but the `matchScore` on that object is `40` —
the fallback-confidence recomputation (title self-similarity of the cleaned
title) overwrites the placeholder's `0` before the object reaches the
caller, so the caller never sees `matchScore = 0`. -/
theorem claim_C3_no_match_placeholder_amended
    (lenv : StorageVal MediaLookupUtils.CacheVal → Nat) (quota : Nat)
    (fetchUPC : String → Except Str UPCData) (env : SearchEnv)
    (currentYear now : Nat) (barcode : String) (u : UPCData)
    (hfetch : fetchUPC barcode = Except.ok u) (hnu : noUsableResults env)
    (hct : cleanMovieTitle (some u.originalTitle) ≠ [])
    (hctt : jsTrim (cleanMovieTitle (some u.originalTitle)) ≠ []) :
    ∃ out : LookupOutput,
      (completeMovieLookup lenv quota fetchUPC env currentYear now mlInit barcode).1 =
        Except.ok out ∧
      out.tmdbData.name = some (cleanMovieTitle (some u.originalTitle)) ∧
      out.tmdbData.needsManualReview = true ∧
      out.needsReview = true ∧
      out.tmdbData.matchScore = some 40 ∧
      out.confidence = 40 :=
  ⟨_, completeLookupNoMatch lenv quota fetchUPC env currentYear now barcode u
    hfetch hnu hct hctt, rfl, rfl, rfl, rfl, rfl⟩

/-- The concrete UPC record of the C3 scenario. -/
def c3U : UPCData :=
  { barcode := "012345678905", originalTitle := "The Matrix".toList,
    brand := [], category := [], description := [] }

/-- A search environment in which every strategy returns an empty result
set (and no detail record exists). -/
def c3Env : SearchEnv := { search := fun _ => some [], details := fun _ _ => none }

/-- Every query of `c3Env` comes back empty. -/
theorem c3EnvNoUsable : noUsableResults c3Env := by
  intro q
  simp [c3Env]

/-- **C3 (counterexample).** A concrete no-match resolution ("The Matrix",
every strategy returning an empty result set): the caller's object has
`needsReview = true` as claimed, but its `matchScore` is *not* `0` — the
fallback confidence has overwritten it with `40`. -/
theorem claim_C3_counterexample :
    ∃ out : LookupOutput,
      (completeMovieLookup (fun _ => 100) 1000000000 (fun _ => Except.ok c3U) c3Env
        2026 5 mlInit "012345678905").1 = Except.ok out ∧
      out.needsReview = true ∧
      out.tmdbData.matchScore ≠ some 0 := by
  refine ⟨_, completeLookupNoMatch (fun _ => 100) 1000000000 (fun _ => Except.ok c3U) c3Env
    2026 5 "012345678905" c3U rfl c3EnvNoUsable (by decide) (by decide), rfl, ?_⟩
  simp only [Option.some.injEq]
  norm_num

/-- **C3 (witness).** The amended statement holds at the concrete
"The Matrix" scenario. -/
theorem claim_C3_witness :
    ∃ out : LookupOutput,
      (completeMovieLookup (fun _ => 100) 1000000000 (fun _ => Except.ok c3U) c3Env
        2026 7 mlInit "012345678905").1 = Except.ok out ∧
      out.tmdbData.name = some (cleanMovieTitle (some c3U.originalTitle)) ∧
      out.tmdbData.needsManualReview = true ∧
      out.needsReview = true ∧
      out.tmdbData.matchScore = some 40 ∧
      out.confidence = 40 :=
  claim_C3_no_match_placeholder_amended (fun _ => 100) 1000000000
    (fun _ => Except.ok c3U) c3Env 2026 7 "012345678905" c3U rfl
    (by intro q; simp [c3Env]) (by decide) (by decide)

end LibrarySale
